import Mathlib

/-! # Epoch roster derivation (verify/interface.go)

A shallow embedding of the four functions of `verify/interface.go`:
`newPayLoadInfo`, `mergeNodeInfo`, `Verifier.GenerateMainNodeList` and
`Verifier.GetElectionAndExitNodeInfo`.

Conventions of the embedding.

* `uint64` values are natural numbers below `2^64`; the additions and
  subtractions of the source are `u64add` and `u64sub`, which wrap modulo `2^64`.
* A Go `map[string]*ElectionTxPayLoadInfo` is an association list with pairwise
  distinct keys (`NodeMap`).  Go does not fix the order in which `range` visits a
  map, so the roster builder takes the visiting order as an argument `iter`; an
  admissible order returns a permutation of the entries (`IterOK`).
* The `for` loop of the scanner is run with fuel, because its `uint64` counter
  can wrap; a run that exhausts the fuel yields `Outcome.outOfFuel`.
* A Go run-time panic (integer division by zero, index out of range) yields
  `Outcome.panicked`.
* Packages that are imported by the file but are not part of it (`params`,
  `election`, `types`, `discover`, the chain behind `v.chain`) are taken as
  parameters: `Params` and `Verifier`.
-/

namespace Verify

/-! ## Machine arithmetic -/

/-- Addition of two `uint64` values (operands below `2^64`). -/
def u64add (a b : Nat) : Nat := (a + b) % 2 ^ 64

/-- Subtraction of two `uint64` values (operands below `2^64`), wrapping. -/
def u64sub (a b : Nat) : Nat := (a + 2 ^ 64 - b) % 2 ^ 64

/-! ## Data model -/

/-- The record `election.NodeInfo`; the fields are the ones the file reads and writes.
Numeric and hash-like fields are natural numbers, whose zero stands for the Go zero value. -/
structure NodeInfo where
  TPS : Nat
  IP : String
  ID : String
  Wealth : Nat
  OnlineTime : Nat
  TxHash : Nat
  Value : Nat
  Account : Nat
deriving DecidableEq, Repr

/-- The record `types.ElectionTxPayLoadInfo`: a node record with its `uint32` election type. -/
structure ElectionTxPayLoadInfo where
  TPS : Nat
  IP : String
  ID : String
  Wealth : Nat
  OnlineTime : Nat
  TxHash : Nat
  Value : Nat
  ElectType : Nat
  Account : Nat
deriving DecidableEq, Repr

/-- The record `election.NodeList`, the roster.  A nil slice and an empty slice are both `[]`. -/
structure NodeList where
  MinerList : List NodeInfo := []
  CommitteeList : List NodeInfo := []
  Both : List NodeInfo := []
  OfflineList : List NodeInfo := []
deriving DecidableEq, Repr

/-- What `discover.ParseNode` yields on success, reduced to the two strings the file reads:
`ID.String()` and `IP.String()`. -/
structure Node where
  ID : String
  IP : String
deriving DecidableEq, Repr

/-- The part of a block header the file reads. -/
structure Header where
  MinerList : List NodeInfo
  CommitteeList : List NodeInfo
  Both : List NodeInfo
  OfflineList : List NodeInfo

/-- A transaction, seen through the two calls the scanner makes on it:
`tx.ParseElectionTxPayLoad()` (`none` for nil) and
`types.Sender(types.MakeSigner(config, height), tx)` (`none` for a non-nil error). -/
structure Transaction where
  ParseElectionTxPayLoad : Option ElectionTxPayLoadInfo
  Sender : Nat → Nat → Option Nat

/-- A block: its header and `Transactions()`, whose entries may be nil (`none`). -/
structure Block where
  header : Header
  Transactions : List (Option Transaction)

/-- The chain behind `v.chain`: `GetBlockByNumber` (`none` for nil), `Config()` and the
number of `CurrentBlock()`. -/
structure Chain where
  GetBlockByNumber : Nat → Option Block
  Config : Nat
  CurrentBlockNumber : Nat

/-- The receiver `v *Verifier`. -/
structure Verifier where
  chain : Chain

/-- The package-level names the file imports: `params.BroadcastInterval`,
`params.MainnetBootnodes`, `discover.ParseNode` and the four election-type constants of
package `types`. -/
structure Params where
  BroadcastInterval : Nat
  MainnetBootnodes : List String
  ParseNode : String → Option Node
  ElectMiner : Nat
  ElectCommittee : Nat
  ElectBoth : Nat
  ElectExit : Nat

/-- The four election-type constants are pairwise distinct: Go rejects a `switch` with two
equal constant cases. -/
def Params.DistinctTypes (cfg : Params) : Prop :=
  cfg.ElectExit ≠ cfg.ElectMiner ∧ cfg.ElectExit ≠ cfg.ElectCommittee ∧
  cfg.ElectExit ≠ cfg.ElectBoth ∧ cfg.ElectMiner ≠ cfg.ElectCommittee ∧
  cfg.ElectMiner ≠ cfg.ElectBoth ∧ cfg.ElectCommittee ≠ cfg.ElectBoth

instance (cfg : Params) : Decidable cfg.DistinctTypes := by
  unfold Params.DistinctTypes; infer_instance

/-- The errors the two methods build with `fmt.Errorf`. -/
inductive Err where
  | notTimeToGenerate (currentNumber : Nat)
  | lastBroadcastBlockMissing (lastBroadcastBlkNumber : Nat)
  | blockNumberIndexErr
deriving DecidableEq, Repr

/-- How a call ends: it returns a value, it panics, or the fuel given to its loop ran out. -/
inductive Outcome (α : Type) where
  | returned (a : α)
  | panicked
  | outOfFuel
deriving DecidableEq, Repr

/-! ## The map `map[string]*types.ElectionTxPayLoadInfo` -/

/-- A Go map as an association list; the operations below keep the keys pairwise distinct. -/
abbrev NodeMap := List (String × ElectionTxPayLoadInfo)

/-- The lookup `nodeMap[k]` (`none` when the key is absent). -/
def mapGet (m : NodeMap) (k : String) : Option ElectionTxPayLoadInfo :=
  (m.find? (fun e => e.1 = k)).map Prod.snd

/-- The assignment `nodeMap[k] = v`: any entry under `k` is replaced. -/
def mapSet (m : NodeMap) (k : String) (v : ElectionTxPayLoadInfo) : NodeMap :=
  (k, v) :: m.filter (fun e => e.1 ≠ k)

/-- An admissible visiting order for `range` over a map: every entry exactly once. -/
def IterOK (iter : NodeMap → NodeMap) : Prop := ∀ m, (iter m).Perm m

/-! ## newPayLoadInfo and mergeNodeInfo -/

/-- Source lines 13-25. -/
def newPayLoadInfo (info : NodeInfo) (electType : Nat) : ElectionTxPayLoadInfo :=
  { TPS := info.TPS
    IP := info.IP
    ID := info.ID
    Wealth := info.Wealth
    OnlineTime := info.OnlineTime
    TxHash := info.TxHash
    Value := info.Value
    ElectType := electType
    Account := info.Account }

/-- One round of the loop of `mergeNodeInfo` (source lines 33-38). -/
def mergeStep (electType : Nat) (nodeMap : NodeMap) (nodeInfo : NodeInfo) : NodeMap :=
  match mapGet nodeMap nodeInfo.ID with
  | some _ => nodeMap
  | none => mapSet nodeMap nodeInfo.ID (newPayLoadInfo nodeInfo electType)

/-- Source lines 27-40; a nil list is `[]` and the loop then does nothing. -/
def mergeNodeInfo (nodeMap : NodeMap) (nodeList : List NodeInfo) (electType : Nat) : NodeMap :=
  nodeList.foldl (mergeStep electType) nodeMap

/-! ## GetElectionAndExitNodeInfo -/

/-- The body of the inner loop for one transaction (source lines 139-158). -/
def scanTx (v : Verifier) (infoMap : NodeMap) (tx : Option Transaction) : NodeMap :=
  match tx with
  | none => infoMap
  | some tx =>
    match tx.ParseElectionTxPayLoad with
    | none => infoMap
    | some nodeInfo =>
      match tx.Sender v.chain.Config v.chain.CurrentBlockNumber with
      | none => infoMap
      | some fromAddress =>
        let nodeInfo := { nodeInfo with Account := fromAddress }
        mapSet infoMap nodeInfo.ID nodeInfo

/-- The state of the scanner loop: the map under construction and, as a ghost field, the
heights passed to `GetBlockByNumber` so far, in call order. -/
structure ScanState where
  infoMap : NodeMap
  reads : List Nat
deriving DecidableEq, Repr

/-- The body of the outer loop for one height (source lines 133-159). -/
def scanBlock (v : Verifier) (st : ScanState) (pos : Nat) : ScanState :=
  match v.chain.GetBlockByNumber pos with
  | none => { infoMap := st.infoMap, reads := st.reads ++ [pos] }
  | some block =>
    { infoMap := block.Transactions.foldl (scanTx v) st.infoMap, reads := st.reads ++ [pos] }

/-- The loop `for ; pos <= blkNumEnd; pos++` (source lines 132-160) with fuel: one unit per
evaluation of the loop condition.  The counter is a `uint64`, so `pos++` wraps. -/
def scanLoop (v : Verifier) (blkNumEnd : Nat) : Nat → Nat → ScanState → Option ScanState
  | 0, _, _ => none
  | fuel + 1, pos, st =>
    if pos ≤ blkNumEnd then scanLoop v blkNumEnd fuel (u64add pos 1) (scanBlock v st pos)
    else some st

/-- What `GetElectionAndExitNodeInfo` returns: the map (`none` for nil), the error (`none` for
nil), and the ghost read log. -/
structure ScanResult where
  infoMap : Option NodeMap
  err : Option Err
  reads : List Nat
deriving DecidableEq, Repr

/-- Source lines 123-163. -/
def GetElectionAndExitNodeInfo (v : Verifier) (fuel : Nat) (blkNumStart blkNumEnd : Nat) :
    Outcome ScanResult :=
  if blkNumStart > blkNumEnd then
    .returned { infoMap := none, err := some .blockNumberIndexErr, reads := [] }
  else
    match scanLoop v blkNumEnd fuel blkNumStart { infoMap := [], reads := [] } with
    | none => .outOfFuel
    | some st => .returned { infoMap := some st.infoMap, err := none, reads := st.reads }

/-! ## GenerateMainNodeList -/

/-- The record built from a parsed bootstrap node (source lines 59 and 65). -/
def bootNodeInfo (n : Node) : NodeInfo :=
  { TPS := 0, IP := n.IP, ID := n.ID, Wealth := 10000, OnlineTime := 0, TxHash := 0,
    Value := 0, Account := 0 }

/-- One round of the loop over the bootstrap nodes of index 1 and up (source lines 64-66). -/
def bootMinerStep (cfg : Params) (minerList : List NodeInfo) (b : String) : List NodeInfo :=
  match cfg.ParseNode b with
  | some bootNode => minerList ++ [bootNodeInfo bootNode]
  | none => minerList

/-- The three baseline lists `minerList`, `committeeList`, `bothList`. -/
structure Baseline where
  minerList : List NodeInfo
  committeeList : List NodeInfo
  bothList : List NodeInfo
deriving DecidableEq, Repr

/-- The genesis branch (source lines 52-67).  Reading `params.MainnetBootnodes[0]` of an empty
list panics. -/
def genesisBaseline (cfg : Params) : Outcome Baseline :=
  match cfg.MainnetBootnodes with
  | [] => .panicked
  | b0 :: rest =>
    let committeeList : List NodeInfo :=
      match cfg.ParseNode b0 with
      | some committeeNode => [] ++ [bootNodeInfo committeeNode]
      | none => []
    let minerList : List NodeInfo := rest.foldl (bootMinerStep cfg) []
    .returned { minerList := minerList, committeeList := committeeList, bothList := [] }

/-- The baseline of source lines 49-77: `.returned none` is the early return of line 72. -/
def selectBaseline (cfg : Params) (v : Verifier) (lastBroadcastBlkNumber : Nat) :
    Outcome (Option Baseline) :=
  if lastBroadcastBlkNumber = 0 then
    match genesisBaseline cfg with
    | .returned b => .returned (some b)
    | .panicked => .panicked
    | .outOfFuel => .outOfFuel
  else
    match v.chain.GetBlockByNumber lastBroadcastBlkNumber with
    | none => .returned none
    | some lastBroadcastBlk =>
      .returned (some { minerList := lastBroadcastBlk.header.MinerList
                        committeeList := lastBroadcastBlk.header.CommitteeList
                        bothList := lastBroadcastBlk.header.Both })

/-- The start of the scan window (source lines 79-84). -/
def startPos (cfg : Params) (currentNumber : Nat) : Nat :=
  if currentNumber > u64add cfg.BroadcastInterval 1 then
    u64sub (u64sub currentNumber cfg.BroadcastInterval) 1
  else 0

/-- The record built at source lines 97-106. -/
def toNodeInfo (value : ElectionTxPayLoadInfo) : NodeInfo :=
  { TPS := value.TPS
    IP := value.IP
    ID := value.ID
    Wealth := value.Wealth
    OnlineTime := value.OnlineTime
    TxHash := value.TxHash
    Value := value.Value
    Account := value.Account }

/-- One round of the loop over the merged map (source lines 97-117): a `switch` without a
default case, tried in the order Exit, Miner, Committee, Both. -/
def emitStep (cfg : Params) (returnList : NodeList) (e : String × ElectionTxPayLoadInfo) :
    NodeList :=
  let value := e.2
  let info := toNodeInfo value
  if value.ElectType = cfg.ElectExit then
    { returnList with OfflineList := returnList.OfflineList ++ [info] }
  else if value.ElectType = cfg.ElectMiner then
    { returnList with MinerList := returnList.MinerList ++ [info] }
  else if value.ElectType = cfg.ElectCommittee then
    { returnList with CommitteeList := returnList.CommitteeList ++ [info] }
  else if value.ElectType = cfg.ElectBoth then
    { returnList with Both := returnList.Both ++ [info] }
  else returnList

/-- The three merges of source lines 91-93. -/
def mergeBaseline (cfg : Params) (newNodeMap : NodeMap) (b : Baseline) : NodeMap :=
  mergeNodeInfo
    (mergeNodeInfo (mergeNodeInfo newNodeMap b.minerList cfg.ElectMiner)
      b.committeeList cfg.ElectCommittee)
    b.bothList cfg.ElectBoth

/-- Source lines 95-118: the loop over the merged map, visited in the order `iter`. -/
def emitLists (cfg : Params) (iter : NodeMap → NodeMap) (m : NodeMap) : NodeList :=
  (iter m).foldl (emitStep cfg) {}

/-- Source lines 86-120: what the builder does with the result of the scanner call. -/
def finishRoster (cfg : Params) (iter : NodeMap → NodeMap) (b : Baseline)
    (scan : Outcome ScanResult) : Outcome (NodeList × Option Err) :=
  match scan with
  | .panicked => .panicked
  | .outOfFuel => .outOfFuel
  | .returned r =>
    match r.err with
    | some err => .returned ({}, some err)
    | none =>
      let newNodeMap := mergeBaseline cfg (r.infoMap.getD []) b
      .returned (emitLists cfg iter newNodeMap, none)

/-- Source lines 42-121.  `iter` is the order in which `range` visits the merged map and
`fuel` bounds the loop of the scanner. -/
def GenerateMainNodeList (cfg : Params) (v : Verifier) (iter : NodeMap → NodeMap) (fuel : Nat)
    (currentNumber : Nat) : Outcome (NodeList × Option Err) :=
  if cfg.BroadcastInterval = 0 then .panicked
  else if u64add currentNumber 2 % cfg.BroadcastInterval ≠ 0 then
    .returned ({}, some (.notTimeToGenerate currentNumber))
  else
    let lastBroadcastBlkNumber := u64sub (u64add currentNumber 2) cfg.BroadcastInterval
    match selectBaseline cfg v lastBroadcastBlkNumber with
    | .panicked => .panicked
    | .outOfFuel => .outOfFuel
    | .returned none => .returned ({}, some (.lastBroadcastBlockMissing lastBroadcastBlkNumber))
    | .returned (some b) =>
      finishRoster cfg iter b
        (GetElectionAndExitNodeInfo v fuel (startPos cfg currentNumber) currentNumber)

/-! ## Invariants of the working map -/

/-- The keys of the map are pairwise distinct. -/
def KeysNodup (m : NodeMap) : Prop := (m.map Prod.fst).Nodup

/-- Every key is the `ID` field of the value stored under it. -/
def KeyIsID (m : NodeMap) : Prop := ∀ e ∈ m, e.1 = e.2.ID

/-! ## The scan window, described without the loop -/

/-- The record the scanner stores for a transaction: the decoded payload with `Account` set to
the recovered sender.  There is none for a nil transaction, for a transaction without an
election payload and for one whose signer recovery fails. -/
def scannedRecord (v : Verifier) (tx : Option Transaction) : Option ElectionTxPayLoadInfo :=
  match tx with
  | none => none
  | some tx =>
    match tx.ParseElectionTxPayLoad with
    | none => none
    | some nodeInfo =>
      match tx.Sender v.chain.Config v.chain.CurrentBlockNumber with
      | none => none
      | some fromAddress => some { nodeInfo with Account := fromAddress }

/-- The transactions of the block at a height, none when the block is absent. -/
def blockTxs (v : Verifier) (h : Nat) : List (Option Transaction) :=
  match v.chain.GetBlockByNumber h with
  | none => []
  | some block => block.Transactions

/-- The heights `blkNumStart .. blkNumEnd`, inclusive and increasing. -/
def windowHeights (blkNumStart blkNumEnd : Nat) : List Nat :=
  List.range' blkNumStart (blkNumEnd + 1 - blkNumStart)

/-- The records of the window in increasing block height and then in-block order. -/
def windowRecords (v : Verifier) (blkNumStart blkNumEnd : Nat) : List ElectionTxPayLoadInfo :=
  ((windowHeights blkNumStart blkNumEnd).flatMap (blockTxs v)).filterMap (scannedRecord v)

/-- The last record of the window for the node `X`, if there is one. -/
def lastRecord (v : Verifier) (blkNumStart blkNumEnd : Nat) (X : String) :
    Option ElectionTxPayLoadInfo :=
  ((windowRecords v blkNumStart blkNumEnd).filter (fun r => r.ID = X)).getLast?

/-- The map obtained by storing a list of records in order, each under its `ID`. -/
def storeAll (m : NodeMap) (rs : List ElectionTxPayLoadInfo) : NodeMap :=
  rs.foldl (fun m r => mapSet m r.ID r) m

/-! ## The output lists, described without the loop -/

/-- The five ways the `switch` of source lines 108-117 can go. -/
inductive Bucket where
  | offline
  | miner
  | committee
  | both
  | dropped
deriving DecidableEq, Repr

/-- The case the `switch` takes for an election type; `dropped` when no case matches. -/
def bucketOf (cfg : Params) (t : Nat) : Bucket :=
  if t = cfg.ElectExit then .offline
  else if t = cfg.ElectMiner then .miner
  else if t = cfg.ElectCommittee then .committee
  else if t = cfg.ElectBoth then .both
  else .dropped

/-- The entries of a sequence that go to one bucket, in order, as node records. -/
def pick (cfg : Params) (b : Bucket) (l : NodeMap) : List NodeInfo :=
  (l.filter (fun e => bucketOf cfg e.2.ElectType = b)).map (fun e => toNodeInfo e.2)

/-- The four lists of a roster, one after the other. -/
def NodeList.all (r : NodeList) : List NodeInfo :=
  r.MinerList ++ r.CommitteeList ++ r.Both ++ r.OfflineList

/-- The output list of a roster that belongs to a bucket (none for `dropped`). -/
def NodeList.bucket (r : NodeList) : Bucket → List NodeInfo
  | .offline => r.OfflineList
  | .miner => r.MinerList
  | .committee => r.CommitteeList
  | .both => r.Both
  | .dropped => []

/-- The map the builder iterates over: the scan result of the window merged with a baseline. -/
def mergedMap (cfg : Params) (v : Verifier) (currentNumber : Nat) (b : Baseline) : NodeMap :=
  mergeBaseline cfg (storeAll [] (windowRecords v (startPos cfg currentNumber) currentNumber)) b

/-- The height of the previous broadcast block (source line 50). -/
def lastBroadcastBlkNumber (cfg : Params) (currentNumber : Nat) : Nat :=
  u64sub (u64add currentNumber 2) cfg.BroadcastInterval

/-! ## A small chain used to instantiate the theorems -/

/-- A parser for bootstrap nodes that rejects the string `bad`. -/
def demoParse (s : String) : Option Node :=
  if s = "bad" then none else some { ID := s, IP := "10.0.0.1" }

/-- Parameters with interval 4, three bootstrap nodes and the types 0, 1, 2, 3. -/
def demoParams : Params :=
  { BroadcastInterval := 4
    MainnetBootnodes := ["b0", "b1", "b2"]
    ParseNode := demoParse
    ElectMiner := 0
    ElectCommittee := 1
    ElectBoth := 2
    ElectExit := 3 }

/-- An election payload as a transaction decodes it (the account is filled in by the scanner). -/
def demoPayload (id : String) (t : Nat) (wealth : Nat) : ElectionTxPayLoadInfo :=
  { TPS := 1, IP := "10.0.0.9", ID := id, Wealth := wealth, OnlineTime := 0, TxHash := 7,
    Value := 9, ElectType := t, Account := 0 }

/-- An election transaction whose signer recovery yields the address 42. -/
def demoTx (id : String) (t : Nat) (wealth : Nat) : Transaction :=
  { ParseElectionTxPayLoad := some (demoPayload id t wealth), Sender := fun _ _ => some 42 }

/-- A node record of a block header. -/
def demoNode (id : String) : NodeInfo :=
  { TPS := 2, IP := "10.0.0.2", ID := id, Wealth := 50, OnlineTime := 3, TxHash := 4,
    Value := 5, Account := 6 }

/-- A chain with two blocks.  Height 1 holds a Committee declaration of `b1`, a nil
transaction, a Miner declaration of `x` followed by an Exit declaration of `x`, and a
declaration of `y` whose election type 7 is none of the four constants.  Height 4
holds the roster of miners `m1`, `m2` and committee member `c1`, and a Committee declaration
of `m1`.  Every other height is absent. -/
def demoChain : Chain :=
  { GetBlockByNumber := fun n =>
      if n = 1 then
        some { header := { MinerList := [], CommitteeList := [], Both := [], OfflineList := [] }
               Transactions := [some (demoTx "b1" 1 5), none, some (demoTx "x" 0 5),
                 some (demoTx "x" 3 8), some (demoTx "y" 7 5)] }
      else if n = 4 then
        some { header := { MinerList := [demoNode "m1", demoNode "m2"]
                           CommitteeList := [demoNode "c1"], Both := [], OfflineList := [] }
               Transactions := [some (demoTx "m1" 1 5)] }
      else none
    Config := 1
    CurrentBlockNumber := 6 }

/-- The verifier over `demoChain`. -/
def demoVerifier : Verifier := { chain := demoChain }

/-- The node record the scanner and the builder make of a `demoTx` declaration. -/
def demoScanned (id : String) (t : Nat) (wealth : Nat) : NodeInfo :=
  toNodeInfo { demoPayload id t wealth with Account := 42 }

/-- The baseline that the block at height 4 of `demoChain` records. -/
def demoBaseline4 : Baseline :=
  { minerList := [demoNode "m1", demoNode "m2"], committeeList := [demoNode "c1"], bothList := [] }

/-- The roster of `demoChain` at height 6 when the merged map is visited in stored order. -/
def demoRoster6 : NodeList :=
  { MinerList := [demoNode "m2"]
    CommitteeList := [demoNode "c1", demoScanned "m1" 1 5, demoScanned "b1" 1 5]
    Both := []
    OfflineList := [demoScanned "x" 3 8] }

/-- The roster of `demoChain` at height 6 when the merged map is visited in reverse order. -/
def demoRoster6rev : NodeList :=
  { MinerList := [demoNode "m2"]
    CommitteeList := [demoScanned "b1" 1 5, demoScanned "m1" 1 5, demoNode "c1"]
    Both := []
    OfflineList := [demoScanned "x" 3 8] }

/-- The roster of `demoChain` at height 2, the genesis epoch, visited in stored order. -/
def demoRoster2 : NodeList :=
  { MinerList := [bootNodeInfo { ID := "b2", IP := "10.0.0.1" }]
    CommitteeList := [bootNodeInfo { ID := "b0", IP := "10.0.0.1" }, demoScanned "b1" 1 5]
    Both := []
    OfflineList := [demoScanned "x" 3 8] }

/-- The genesis baseline of `demoParams`. -/
def demoBaseline0 : Baseline :=
  { minerList := [bootNodeInfo { ID := "b1", IP := "10.0.0.1" },
      bootNodeInfo { ID := "b2", IP := "10.0.0.1" }]
    committeeList := [bootNodeInfo { ID := "b0", IP := "10.0.0.1" }]
    bothList := [] }

/-- The genesis baseline in closed form, for a bootstrap list with first entry `b0` and
remaining entries `rest`: the entries that parse, with the nominal wealth, the first one as
committee member and the remaining ones as miners in bootstrap order. -/
def bootstrapBaseline (cfg : Params) (b0 : String) (rest : List String) : Baseline :=
  { minerList := (rest.filterMap cfg.ParseNode).map bootNodeInfo
    committeeList := (cfg.ParseNode b0).toList.map bootNodeInfo
    bothList := [] }

/-- The parameters `demoParams` with a first bootstrap node that does not parse. -/
def demoParamsBad : Params := { demoParams with MainnetBootnodes := ["bad", "b1", "b2"] }

/-! ## Comparing two runs -/

/-- The canonical ordering of a list of node records: ascending by `ID`. -/
def sortByID (l : List NodeInfo) : List NodeInfo :=
  l.insertionSort (fun a b => a.ID ≤ b.ID)

/-- The roster with each of its four lists sorted by `ID`. -/
def NodeList.sortedByID (r : NodeList) : NodeList :=
  { MinerList := sortByID r.MinerList
    CommitteeList := sortByID r.CommitteeList
    Both := sortByID r.Both
    OfflineList := sortByID r.OfflineList }

/-- Two rosters hold, list by list, the same records with the same multiplicities. -/
def NodeList.PermOf (r₁ r₂ : NodeList) : Prop :=
  r₁.MinerList.Perm r₂.MinerList ∧ r₁.CommitteeList.Perm r₂.CommitteeList ∧
  r₁.Both.Perm r₂.Both ∧ r₁.OfflineList.Perm r₂.OfflineList

/-- Two calls of the builder end the same way up to the order of the lists: both panic, both
run out of fuel, or both return, with the same error status, rosters that are list by list
permutations of each other and that are equal once sorted by `ID`. -/
def SameUpToOrder : Outcome (NodeList × Option Err) → Outcome (NodeList × Option Err) → Prop
  | .returned (r₁, e₁), .returned (r₂, e₂) =>
    e₁ = e₂ ∧ r₁.PermOf r₂ ∧ r₁.sortedByID = r₂.sortedByID
  | .panicked, .panicked => True
  | .outOfFuel, .outOfFuel => True
  | _, _ => False

/-! ## Variations of a chain -/

/-- The verifier over the same chain, except that the header of the block at height `h`, when
that block is present, records the offline list `l`. -/
def withOfflineList (v : Verifier) (h : Nat) (l : List NodeInfo) : Verifier :=
  { chain :=
      { GetBlockByNumber := fun n =>
          if n = h then
            (v.chain.GetBlockByNumber n).map
              (fun blk => { blk with header := { blk.header with OfflineList := l } })
          else v.chain.GetBlockByNumber n
        Config := v.chain.Config
        CurrentBlockNumber := v.chain.CurrentBlockNumber } }

/-! ## Two more chains used to instantiate the theorems -/

/-- A node record of a block header with a chosen wealth. -/
def demoNodeW (id : String) (wealth : Nat) : NodeInfo :=
  { demoNode id with Wealth := wealth }

/-- A chain whose only block, at height 4, holds no transaction and records a roster with
repeated IDs: `a` twice in the miner list and once in the committee list, `c` in the committee
list and in the Both list. -/
def demoDupChain : Chain :=
  { GetBlockByNumber := fun n =>
      if n = 4 then
        some { header := { MinerList := [demoNodeW "a" 50, demoNodeW "a" 60]
                           CommitteeList := [demoNodeW "a" 70, demoNodeW "c" 80]
                           Both := [demoNodeW "c" 90]
                           OfflineList := [] }
               Transactions := [] }
      else none
    Config := 1
    CurrentBlockNumber := 6 }

/-- The verifier over `demoDupChain`. -/
def demoDupVerifier : Verifier := { chain := demoDupChain }

/-- The baseline that the block at height 4 of `demoDupChain` records. -/
def demoDupBaseline : Baseline :=
  { minerList := [demoNodeW "a" 50, demoNodeW "a" 60]
    committeeList := [demoNodeW "a" 70, demoNodeW "c" 80]
    bothList := [demoNodeW "c" 90] }

/-- The roster of `demoDupChain` at height 6, visited in stored order. -/
def demoDupRoster : NodeList :=
  { MinerList := [demoNodeW "a" 50]
    CommitteeList := [demoNodeW "c" 80]
    Both := []
    OfflineList := [] }

/-- The block at height 4 of `demoQuietChain`: no transaction, a roster with distinct IDs and
an offline list. -/
def demoQuietBlock : Block :=
  { header := { MinerList := [demoNode "m1", demoNode "m2"]
                CommitteeList := [demoNode "c1"]
                Both := [demoNode "d1"]
                OfflineList := [demoNode "z"] }
    Transactions := [] }

/-- A chain whose only block is `demoQuietBlock` at height 4. -/
def demoQuietChain : Chain :=
  { GetBlockByNumber := fun n => if n = 4 then some demoQuietBlock else none
    Config := 1
    CurrentBlockNumber := 6 }

/-- The verifier over `demoQuietChain`. -/
def demoQuietVerifier : Verifier := { chain := demoQuietChain }

/-- The roster of `demoQuietChain` at height 6, visited in stored order. -/
def demoQuietRoster : NodeList :=
  { MinerList := [demoNode "m2", demoNode "m1"]
    CommitteeList := [demoNode "c1"]
    Both := [demoNode "d1"]
    OfflineList := [] }

/-- The chain `demoChain` with the declaration of `y` moved from the end of the block at
height 1 to the front of the block at height 4: the order of all transactions is the same. -/
def demoMovedChain : Chain :=
  { GetBlockByNumber := fun n =>
      if n = 1 then
        some { header := { MinerList := [], CommitteeList := [], Both := [], OfflineList := [] }
               Transactions := [some (demoTx "b1" 1 5), none, some (demoTx "x" 0 5),
                 some (demoTx "x" 3 8)] }
      else if n = 4 then
        some { header := { MinerList := [demoNode "m1", demoNode "m2"]
                           CommitteeList := [demoNode "c1"], Both := [], OfflineList := [] }
               Transactions := [some (demoTx "y" 7 5), some (demoTx "m1" 1 5)] }
      else none
    Config := 1
    CurrentBlockNumber := 6 }

/-- The verifier over `demoMovedChain`. -/
def demoMovedVerifier : Verifier := { chain := demoMovedChain }

/-- The parameters `demoParams` with an empty bootstrap list. -/
def demoParamsEmpty : Params := { demoParams with MainnetBootnodes := [] }

/-! ## Machine arithmetic and map lemmas -/

theorem u64add_of_lt {a b : Nat} (h : a + b < 2 ^ 64) : u64add a b = a + b := by
  unfold u64add; exact Nat.mod_eq_of_lt h

theorem u64sub_of_le {a b : Nat} (hb : b ≤ a) (ha : a < 2 ^ 64) : u64sub a b = a - b := by
  unfold u64sub
  have : a + 2 ^ 64 - b = (a - b) + 2 ^ 64 := by omega
  rw [this, Nat.add_mod_right]
  exact Nat.mod_eq_of_lt (by omega)

theorem mapGet_nil (k : String) : mapGet [] k = none := rfl

theorem mapGet_cons (e : String × ElectionTxPayLoadInfo) (m : NodeMap) (k : String) :
    mapGet (e :: m) k = if e.1 = k then some e.2 else mapGet m k := by
  unfold mapGet
  by_cases h : e.1 = k <;> simp [List.find?_cons, h]

theorem mapGet_filter_ne (m : NodeMap) {k k' : String} (h : k ≠ k') :
    mapGet (m.filter (fun e => e.1 ≠ k)) k' = mapGet m k' := by
  induction m with
  | nil => rfl
  | cons e m ih =>
    by_cases he : e.1 = k
    · have h1 : e.1 ≠ k' := by rw [he]; exact h
      rw [List.filter_cons_of_neg (by simpa using he), mapGet_cons, if_neg h1, ih]
    · rw [List.filter_cons_of_pos (by simpa using he), mapGet_cons, mapGet_cons, ih]

theorem mapGet_mapSet (m : NodeMap) (k : String) (v : ElectionTxPayLoadInfo) (k' : String) :
    mapGet (mapSet m k v) k' = if k = k' then some v else mapGet m k' := by
  unfold mapSet
  rw [mapGet_cons]
  by_cases h : k = k'
  · rw [if_pos h, if_pos h]
  · rw [if_neg h, if_neg h, mapGet_filter_ne m h]

theorem mapGet_eq_none_iff (m : NodeMap) (k : String) :
    mapGet m k = none ↔ ∀ e ∈ m, e.1 ≠ k := by
  induction m with
  | nil => simp [mapGet_nil]
  | cons e m ih =>
    rw [mapGet_cons]
    by_cases h : e.1 = k
    · simp [h]
    · simp [h, ih]

theorem keysNodup_nil : KeysNodup [] := by simp [KeysNodup]

theorem keysNodup_mapSet {m : NodeMap} (h : KeysNodup m) (k : String)
    (v : ElectionTxPayLoadInfo) : KeysNodup (mapSet m k v) := by
  unfold KeysNodup mapSet at *
  rw [List.map_cons, List.nodup_cons]
  constructor
  · simp [List.mem_map, List.mem_filter]
  · exact (List.filter_sublist m).map Prod.fst |>.nodup h

theorem mem_iff_mapGet {m : NodeMap} (h : KeysNodup m) (k : String)
    (v : ElectionTxPayLoadInfo) : (k, v) ∈ m ↔ mapGet m k = some v := by
  induction m with
  | nil => simp [mapGet_nil]
  | cons e m ih =>
    unfold KeysNodup at h
    rw [List.map_cons, List.nodup_cons] at h
    rw [mapGet_cons, List.mem_cons]
    by_cases he : e.1 = k
    · simp only [he, if_true, Option.some.injEq]
      constructor
      · rintro (h1 | h1)
        · rw [← h1]
        · exact absurd (List.mem_map.2 ⟨(k, v), h1, rfl⟩) (he ▸ h.1)
      · intro h1; left; rw [← h1, ← he]
    · simp only [he, if_false]
      rw [← ih h.2]
      constructor
      · rintro (h1 | h1)
        · exact absurd (by rw [← h1]) he
        · exact h1
      · intro h1; right; exact h1

theorem keyIsID_mapSet {m : NodeMap} (h : KeyIsID m) (v : ElectionTxPayLoadInfo) :
    KeyIsID (mapSet m v.ID v) := by
  intro e he
  unfold mapSet at he
  rcases List.mem_cons.1 he with h1 | h1
  · rw [h1]
  · exact h e (List.mem_filter.1 h1).1


/-! ## The scanner -/

theorem scanTx_eq (v : Verifier) (m : NodeMap) (tx : Option Transaction) :
    scanTx v m tx = match scannedRecord v tx with
      | none => m
      | some r => mapSet m r.ID r := by
  unfold scanTx scannedRecord
  cases tx with
  | none => rfl
  | some tx =>
    dsimp only
    cases tx.ParseElectionTxPayLoad with
    | none => rfl
    | some p =>
      dsimp only
      cases tx.Sender v.chain.Config v.chain.CurrentBlockNumber with
      | none => rfl
      | some a => rfl

theorem foldl_scanTx (v : Verifier) (txs : List (Option Transaction)) (m : NodeMap) :
    txs.foldl (scanTx v) m = storeAll m (txs.filterMap (scannedRecord v)) := by
  induction txs generalizing m with
  | nil => rfl
  | cons tx txs ih =>
    rw [List.foldl_cons, ih, scanTx_eq]
    cases h : scannedRecord v tx with
    | none => rw [List.filterMap_cons_none h]
    | some r => rw [List.filterMap_cons_some h]; rfl

theorem storeAll_append (m : NodeMap) (rs rs' : List ElectionTxPayLoadInfo) :
    storeAll m (rs ++ rs') = storeAll (storeAll m rs) rs' := by
  unfold storeAll; rw [List.foldl_append]

theorem scanBlock_eq (v : Verifier) (st : ScanState) (pos : Nat) :
    scanBlock v st pos =
      { infoMap := storeAll st.infoMap ((blockTxs v pos).filterMap (scannedRecord v))
        reads := st.reads ++ [pos] } := by
  unfold scanBlock blockTxs
  cases v.chain.GetBlockByNumber pos with
  | none => rfl
  | some b => dsimp only; rw [foldl_scanTx]

theorem foldl_scanBlock (v : Verifier) (hs : List Nat) (st : ScanState) :
    hs.foldl (scanBlock v) st =
      { infoMap := storeAll st.infoMap ((hs.flatMap (blockTxs v)).filterMap (scannedRecord v))
        reads := st.reads ++ hs } := by
  induction hs generalizing st with
  | nil => simp [storeAll]
  | cons h hs ih =>
    rw [List.foldl_cons, ih, scanBlock_eq]
    simp [List.flatMap_cons, List.filterMap_append, storeAll_append]

/-- The loop, given enough fuel and an end below the largest `uint64`, runs the body once for
each height from `pos` to `blkNumEnd` in increasing order and then stops. -/
theorem scanLoop_eq_foldl (v : Verifier) (blkNumEnd : Nat) (hend : blkNumEnd + 1 < 2 ^ 64) :
    ∀ (n fuel pos : Nat) (st : ScanState), pos + n = blkNumEnd + 1 → n < fuel →
      scanLoop v blkNumEnd fuel pos st = some ((List.range' pos n).foldl (scanBlock v) st) := by
  intro n
  induction n with
  | zero =>
    intro fuel pos st hp hf
    obtain ⟨f, rfl⟩ : ∃ f, fuel = f + 1 := ⟨fuel - 1, by omega⟩
    have : ¬ pos ≤ blkNumEnd := by omega
    simp [scanLoop, this]
  | succ n ih =>
    intro fuel pos st hp hf
    obtain ⟨f, rfl⟩ : ∃ f, fuel = f + 1 := ⟨fuel - 1, by omega⟩
    have h1 : pos ≤ blkNumEnd := by omega
    have h2 : u64add pos 1 = pos + 1 := u64add_of_lt (by omega)
    rw [scanLoop, if_pos h1, h2, ih f (pos + 1) _ (by omega) (by omega), List.range'_succ,
      List.foldl_cons]

/-- The scanner on a well-ordered range whose end is below the largest `uint64`: with enough
fuel it returns the map that stores the records of the window in order, and no error. -/
theorem GetElectionAndExitNodeInfo_eq (v : Verifier) (fuel blkNumStart blkNumEnd : Nat)
    (hle : blkNumStart ≤ blkNumEnd) (hend : blkNumEnd + 1 < 2 ^ 64)
    (hfuel : blkNumEnd + 1 - blkNumStart < fuel) :
    GetElectionAndExitNodeInfo v fuel blkNumStart blkNumEnd =
      .returned { infoMap := some (storeAll [] (windowRecords v blkNumStart blkNumEnd))
                  err := none
                  reads := windowHeights blkNumStart blkNumEnd } := by
  unfold GetElectionAndExitNodeInfo
  rw [if_neg (by omega),
    scanLoop_eq_foldl v blkNumEnd hend (blkNumEnd + 1 - blkNumStart) fuel blkNumStart _
      (by omega) hfuel, foldl_scanBlock]
  simp [windowRecords, windowHeights]

/-- When the end of the range is the largest `uint64`, the loop condition never fails, so the
loop never stops: every amount of fuel is used up. -/
theorem scanLoop_none_of_max (v : Verifier) (blkNumEnd : Nat) (hend : 2 ^ 64 - 1 ≤ blkNumEnd) :
    ∀ (fuel pos : Nat) (st : ScanState), pos < 2 ^ 64 →
      scanLoop v blkNumEnd fuel pos st = none := by
  intro fuel
  induction fuel with
  | zero => intro pos st _; rfl
  | succ f ih =>
    intro pos st hpos
    have h1 : pos ≤ blkNumEnd := by omega
    rw [scanLoop, if_pos h1]
    exact ih _ _ (Nat.mod_lt _ (by norm_num))

/-- Whenever the loop stops, it has run the body once for each height from `pos` to `blkNumEnd`
in increasing order. -/
theorem scanLoop_some (v : Verifier) (blkNumEnd : Nat) :
    ∀ (fuel pos : Nat) (st st' : ScanState), pos < 2 ^ 64 →
      scanLoop v blkNumEnd fuel pos st = some st' →
      st' = (List.range' pos (blkNumEnd + 1 - pos)).foldl (scanBlock v) st := by
  intro fuel
  induction fuel with
  | zero => intro pos st st' _ h; simp [scanLoop] at h
  | succ f ih =>
    intro pos st st' hpos h
    rw [scanLoop] at h
    by_cases h1 : pos ≤ blkNumEnd
    · rw [if_pos h1] at h
      by_cases h2 : pos + 1 < 2 ^ 64
      · rw [u64add_of_lt h2] at h
        have := ih (pos + 1) _ st' h2 h
        rw [this]
        have h3 : blkNumEnd + 1 - pos = (blkNumEnd + 1 - (pos + 1)) + 1 := by omega
        rw [h3, List.range'_succ, List.foldl_cons]
      · have hn := scanLoop_none_of_max v blkNumEnd (by omega) f (u64add pos 1)
          (scanBlock v st pos) (Nat.mod_lt _ (by norm_num))
        rw [hn] at h
        exact absurd h (by simp)
    · rw [if_neg h1] at h
      have h3 : blkNumEnd + 1 - pos = 0 := by omega
      rw [h3]; simp at h; simp [h]

/-- Whenever the scanner returns on a well-ordered range, it returns the map that stores the
records of the window in order, no error, and it has read the heights of the window in
increasing order. -/
theorem GetElectionAndExitNodeInfo_returned (v : Verifier) (fuel blkNumStart blkNumEnd : Nat)
    (r : ScanResult) (hle : blkNumStart ≤ blkNumEnd) (hs : blkNumStart < 2 ^ 64)
    (h : GetElectionAndExitNodeInfo v fuel blkNumStart blkNumEnd = .returned r) :
    r = { infoMap := some (storeAll [] (windowRecords v blkNumStart blkNumEnd))
          err := none
          reads := windowHeights blkNumStart blkNumEnd } := by
  unfold GetElectionAndExitNodeInfo at h
  rw [if_neg (by omega)] at h
  cases hl : scanLoop v blkNumEnd fuel blkNumStart { infoMap := [], reads := [] } with
  | none => rw [hl] at h; cases h
  | some st =>
    rw [hl] at h
    have := scanLoop_some v blkNumEnd fuel blkNumStart _ st hs hl
    rw [foldl_scanBlock] at this
    injection h with h
    rw [← h, this]
    simp [windowRecords, windowHeights]

/-- The scanner on an inverted range returns the error and a nil map without reading a
block. -/
theorem GetElectionAndExitNodeInfo_inverted (v : Verifier) (fuel blkNumStart blkNumEnd : Nat)
    (h : blkNumStart > blkNumEnd) :
    GetElectionAndExitNodeInfo v fuel blkNumStart blkNumEnd =
      .returned { infoMap := none, err := some .blockNumberIndexErr, reads := [] } := by
  unfold GetElectionAndExitNodeInfo
  rw [if_pos h]

/-! ## Last write wins -/

theorem storeAll_concat (m : NodeMap) (rs : List ElectionTxPayLoadInfo)
    (r : ElectionTxPayLoadInfo) : storeAll m (rs ++ [r]) = mapSet (storeAll m rs) r.ID r := by
  rw [storeAll_append]; rfl

/-- Storing records in order keeps, for each `ID`, the last record with that `ID`; an `ID`
without a record keeps what the map held before. -/
theorem mapGet_storeAll (m : NodeMap) (rs : List ElectionTxPayLoadInfo) (X : String) :
    mapGet (storeAll m rs) X = ((rs.filter (fun r => r.ID = X)).getLast?).or (mapGet m X) := by
  induction rs using List.reverseRecOn with
  | nil => simp [storeAll]
  | append_singleton rs r ih =>
    rw [storeAll_concat, mapGet_mapSet, List.filter_append]
    by_cases h : r.ID = X
    · rw [if_pos h, List.filter_cons_of_pos (by simpa using h), List.filter_nil,
        List.getLast?_concat]; rfl
    · rw [if_neg h, ih, List.filter_cons_of_neg (by simpa using h), List.filter_nil,
        List.append_nil]

theorem keysNodup_storeAll {m : NodeMap} (h : KeysNodup m) (rs : List ElectionTxPayLoadInfo) :
    KeysNodup (storeAll m rs) := by
  induction rs using List.reverseRecOn with
  | nil => exact h
  | append_singleton rs r ih => rw [storeAll_concat]; exact keysNodup_mapSet ih _ _

theorem keyIsID_storeAll {m : NodeMap} (h : KeyIsID m) (rs : List ElectionTxPayLoadInfo) :
    KeyIsID (storeAll m rs) := by
  induction rs using List.reverseRecOn with
  | nil => exact h
  | append_singleton rs r ih => rw [storeAll_concat]; exact keyIsID_mapSet ih r

theorem keyIsID_nil : KeyIsID [] := by intro e he; cases he

/-! ## mergeNodeInfo -/

theorem mapGet_mergeStep (t : Nat) (m : NodeMap) (n : NodeInfo) (X : String) :
    mapGet (mergeStep t m n) X =
      (mapGet m X).or (if n.ID = X then some (newPayLoadInfo n t) else none) := by
  unfold mergeStep
  cases h : mapGet m n.ID with
  | some p =>
    dsimp only
    by_cases hX : n.ID = X
    · rw [← hX, h]; rfl
    · rw [if_neg hX]; cases mapGet m X <;> rfl
  | none =>
    dsimp only
    rw [mapGet_mapSet]
    by_cases hX : n.ID = X
    · rw [if_pos hX, if_pos hX, ← hX, h]; rfl
    · rw [if_neg hX, if_neg hX]; cases mapGet m X <;> rfl

theorem keysNodup_mergeStep (t : Nat) {m : NodeMap} (h : KeysNodup m) (n : NodeInfo) :
    KeysNodup (mergeStep t m n) := by
  unfold mergeStep
  cases mapGet m n.ID with
  | some p => exact h
  | none => exact keysNodup_mapSet h _ _

theorem keyIsID_mergeStep (t : Nat) {m : NodeMap} (h : KeyIsID m) (n : NodeInfo) :
    KeyIsID (mergeStep t m n) := by
  unfold mergeStep
  cases mapGet m n.ID with
  | some p => exact h
  | none => exact keyIsID_mapSet h (newPayLoadInfo n t)

/-- After `mergeNodeInfo` an `ID` that was a key keeps its value; any other `ID` gets the
payload of its first occurrence in the list, if it occurs. -/
theorem mapGet_mergeNodeInfo (m : NodeMap) (l : List NodeInfo) (t : Nat) (X : String) :
    mapGet (mergeNodeInfo m l t) X =
      (mapGet m X).or ((l.find? (fun n => n.ID = X)).map (fun n => newPayLoadInfo n t)) := by
  unfold mergeNodeInfo
  induction l generalizing m with
  | nil => simp
  | cons n l ih =>
    rw [List.foldl_cons, ih, mapGet_mergeStep, List.find?_cons]
    by_cases hX : n.ID = X
    · simp only [hX, decide_True, if_true, Option.map_some']
      cases mapGet m X <;> rfl
    · simp only [hX, decide_False, if_false]
      cases mapGet m X <;> simp

theorem keysNodup_mergeNodeInfo {m : NodeMap} (h : KeysNodup m) (l : List NodeInfo) (t : Nat) :
    KeysNodup (mergeNodeInfo m l t) := by
  unfold mergeNodeInfo
  induction l generalizing m with
  | nil => exact h
  | cons n l ih => exact ih (keysNodup_mergeStep t h n)

theorem keyIsID_mergeNodeInfo {m : NodeMap} (h : KeyIsID m) (l : List NodeInfo) (t : Nat) :
    KeyIsID (mergeNodeInfo m l t) := by
  unfold mergeNodeInfo
  induction l generalizing m with
  | nil => exact h
  | cons n l ih => exact ih (keyIsID_mergeStep t h n)

/-! ## The loop over the merged map -/

theorem pick_singleton (cfg : Params) (b : Bucket) (e : String × ElectionTxPayLoadInfo) :
    pick cfg b [e] = if bucketOf cfg e.2.ElectType = b then [toNodeInfo e.2] else [] := by
  unfold pick
  by_cases h : bucketOf cfg e.2.ElectType = b
  · rw [if_pos h, List.filter_cons_of_pos (by simpa using h)]; rfl
  · rw [if_neg h, List.filter_cons_of_neg (by simpa using h)]; rfl

theorem emitStep_eq (cfg : Params) (r : NodeList) (e : String × ElectionTxPayLoadInfo) :
    emitStep cfg r e =
      { MinerList := r.MinerList ++ pick cfg .miner [e]
        CommitteeList := r.CommitteeList ++ pick cfg .committee [e]
        Both := r.Both ++ pick cfg .both [e]
        OfflineList := r.OfflineList ++ pick cfg .offline [e] } := by
  simp only [pick_singleton]
  unfold emitStep
  dsimp only
  by_cases h1 : e.2.ElectType = cfg.ElectExit
  · have hb : bucketOf cfg e.2.ElectType = .offline := by unfold bucketOf; rw [if_pos h1]
    rw [if_pos h1, hb]; simp
  · by_cases h2 : e.2.ElectType = cfg.ElectMiner
    · have hb : bucketOf cfg e.2.ElectType = .miner := by
        unfold bucketOf; rw [if_neg h1, if_pos h2]
      rw [if_neg h1, if_pos h2, hb]; simp
    · by_cases h3 : e.2.ElectType = cfg.ElectCommittee
      · have hb : bucketOf cfg e.2.ElectType = .committee := by
          unfold bucketOf; rw [if_neg h1, if_neg h2, if_pos h3]
        rw [if_neg h1, if_neg h2, if_pos h3, hb]; simp
      · by_cases h4 : e.2.ElectType = cfg.ElectBoth
        · have hb : bucketOf cfg e.2.ElectType = .both := by
            unfold bucketOf; rw [if_neg h1, if_neg h2, if_neg h3, if_pos h4]
          rw [if_neg h1, if_neg h2, if_neg h3, if_pos h4, hb]; simp
        · have hb : bucketOf cfg e.2.ElectType = .dropped := by
            unfold bucketOf; rw [if_neg h1, if_neg h2, if_neg h3, if_neg h4]
          rw [if_neg h1, if_neg h2, if_neg h3, if_neg h4, hb]; simp

theorem pick_append (cfg : Params) (b : Bucket) (l l' : NodeMap) :
    pick cfg b (l ++ l') = pick cfg b l ++ pick cfg b l' := by
  unfold pick; rw [List.filter_append, List.map_append]

theorem foldl_emitStep (cfg : Params) (l : NodeMap) (r : NodeList) :
    l.foldl (emitStep cfg) r =
      { MinerList := r.MinerList ++ pick cfg .miner l
        CommitteeList := r.CommitteeList ++ pick cfg .committee l
        Both := r.Both ++ pick cfg .both l
        OfflineList := r.OfflineList ++ pick cfg .offline l } := by
  induction l generalizing r with
  | nil => simp [pick]
  | cons e l ih =>
    rw [List.foldl_cons, ih, emitStep_eq]
    have hc : ∀ b, pick cfg b (e :: l) = pick cfg b [e] ++ pick cfg b l := fun b =>
      pick_append cfg b [e] l
    simp only [hc, List.append_assoc]

/-- Each output list is the part of the visiting sequence that the `switch` sends to it, in
visiting order. -/
theorem emitLists_eq (cfg : Params) (iter : NodeMap → NodeMap) (m : NodeMap) :
    emitLists cfg iter m =
      { MinerList := pick cfg .miner (iter m)
        CommitteeList := pick cfg .committee (iter m)
        Both := pick cfg .both (iter m)
        OfflineList := pick cfg .offline (iter m) } := by
  unfold emitLists
  rw [foldl_emitStep]
  rfl

theorem emitLists_bucket (cfg : Params) (iter : NodeMap → NodeMap) (m : NodeMap) (b : Bucket)
    (hb : b ≠ .dropped) : (emitLists cfg iter m).bucket b = pick cfg b (iter m) := by
  rw [emitLists_eq]
  cases b <;> first | rfl | exact absurd rfl hb

theorem mem_pick (cfg : Params) (b : Bucket) (l : NodeMap) (n : NodeInfo) :
    n ∈ pick cfg b l ↔ ∃ e ∈ l, bucketOf cfg e.2.ElectType = b ∧ toNodeInfo e.2 = n := by
  unfold pick
  simp only [List.mem_map, List.mem_filter, decide_eq_true_eq]
  constructor
  · rintro ⟨e, ⟨h1, h2⟩, h3⟩; exact ⟨e, h1, h2, h3⟩
  · rintro ⟨e, h1, h2, h3⟩; exact ⟨e, ⟨h1, h2⟩, h3⟩

theorem pick_ids (cfg : Params) (b : Bucket) {l : NodeMap} (hid : KeyIsID l) :
    (pick cfg b l).map NodeInfo.ID =
      (l.filter (fun e => bucketOf cfg e.2.ElectType = b)).map Prod.fst := by
  unfold pick
  rw [List.map_map]
  apply List.map_congr_left
  intro e he
  exact (hid e (List.mem_filter.1 he).1).symm

theorem nodup_pick_ids (cfg : Params) (b : Bucket) {l : NodeMap} (hn : KeysNodup l)
    (hid : KeyIsID l) : ((pick cfg b l).map NodeInfo.ID).Nodup := by
  rw [pick_ids cfg b hid]
  exact ((List.filter_sublist l).map Prod.fst).nodup hn

/-- An `ID` that the map holds with a type of a bucket occurs exactly once among the `ID`s of
that bucket. -/
theorem count_pick_ids_one (cfg : Params) (b : Bucket) {l : NodeMap} (hn : KeysNodup l)
    (hid : KeyIsID l) (X : String) (p : ElectionTxPayLoadInfo) (hp : (X, p) ∈ l)
    (hb : bucketOf cfg p.ElectType = b) : ((pick cfg b l).map NodeInfo.ID).count X = 1 := by
  rw [pick_ids cfg b hid]
  have hnd : ((l.filter (fun e => bucketOf cfg e.2.ElectType = b)).map Prod.fst).Nodup :=
    ((List.filter_sublist l).map Prod.fst).nodup hn
  apply List.count_eq_one_of_mem hnd
  exact List.mem_map.2 ⟨(X, p), List.mem_filter.2 ⟨hp, by simpa using hb⟩, rfl⟩

/-- An `ID` that the map does not hold with a type of a bucket does not occur among the `ID`s
of that bucket. -/
theorem count_pick_ids_zero (cfg : Params) (b : Bucket) {l : NodeMap}
    (hid : KeyIsID l) (X : String) (h : ∀ p, (X, p) ∈ l → bucketOf cfg p.ElectType ≠ b) :
    ((pick cfg b l).map NodeInfo.ID).count X = 0 := by
  rw [pick_ids cfg b hid]
  apply List.count_eq_zero_of_not_mem
  intro hm
  obtain ⟨e, he, hX⟩ := List.mem_map.1 hm
  have := List.mem_filter.1 he
  exact h e.2 (by rw [← hX]; exact this.1) (by simpa using this.2)

theorem keysNodup_of_perm {l m : NodeMap} (h : l.Perm m) (hn : KeysNodup m) : KeysNodup l :=
  ((h.map Prod.fst).nodup_iff).2 hn

theorem keyIsID_of_perm {l m : NodeMap} (h : l.Perm m) (hid : KeyIsID m) : KeyIsID l :=
  fun e he => hid e (h.mem_iff.1 he)

theorem pick_perm (cfg : Params) (b : Bucket) {l m : NodeMap} (h : l.Perm m) :
    (pick cfg b l).Perm (pick cfg b m) :=
  (h.filter _).map _

/-! ## The roster builder -/

theorem startPos_lt (cfg : Params) (currentNumber : Nat) :
    startPos cfg currentNumber < 2 ^ 64 := by
  unfold startPos u64sub
  split
  · exact Nat.mod_lt _ (by norm_num)
  · norm_num

/-- With an interval constant whose successor is representable, the window start is the
truncated difference `currentNumber - BroadcastInterval - 1`. -/
theorem startPos_eq (cfg : Params) (currentNumber : Nat) (hbi : cfg.BroadcastInterval + 1 < 2 ^ 64)
    (hcn : currentNumber < 2 ^ 64) :
    startPos cfg currentNumber = currentNumber - cfg.BroadcastInterval - 1 := by
  unfold startPos
  rw [u64add_of_lt hbi]
  by_cases h : currentNumber > cfg.BroadcastInterval + 1
  · rw [if_pos h, u64sub_of_le (by omega) hcn, u64sub_of_le (by omega) (by omega)]
  · rw [if_neg h]; omega

theorem startPos_le (cfg : Params) (currentNumber : Nat)
    (hbi : cfg.BroadcastInterval < 2 ^ 64) (hcn : currentNumber < 2 ^ 64) :
    startPos cfg currentNumber ≤ currentNumber := by
  unfold startPos u64sub u64add
  split <;> omega

/-- A call of the builder returns without error exactly along one path: the interval is not
zero, the height is a boundary, a baseline is found, and the roster is emitted from the merged
map of the window. -/
theorem GenerateMainNodeList_success (cfg : Params) (v : Verifier) (iter : NodeMap → NodeMap)
    (fuel currentNumber : Nat) (roster : NodeList)
    (h : GenerateMainNodeList cfg v iter fuel currentNumber = .returned (roster, none)) :
    ∃ b, cfg.BroadcastInterval ≠ 0 ∧ u64add currentNumber 2 % cfg.BroadcastInterval = 0 ∧
      selectBaseline cfg v (lastBroadcastBlkNumber cfg currentNumber) = .returned (some b) ∧
      GetElectionAndExitNodeInfo v fuel (startPos cfg currentNumber) currentNumber =
        .returned { infoMap := some (storeAll []
                      (windowRecords v (startPos cfg currentNumber) currentNumber))
                    err := none
                    reads := windowHeights (startPos cfg currentNumber) currentNumber } ∧
      roster = emitLists cfg iter (mergedMap cfg v currentNumber b) := by
  unfold GenerateMainNodeList at h
  by_cases h0 : cfg.BroadcastInterval = 0
  · rw [if_pos h0] at h; cases h
  rw [if_neg h0] at h
  by_cases h1 : u64add currentNumber 2 % cfg.BroadcastInterval ≠ 0
  · rw [if_pos h1] at h; cases h
  rw [if_neg h1] at h
  dsimp only at h
  cases hb : selectBaseline cfg v (u64sub (u64add currentNumber 2) cfg.BroadcastInterval) with
  | panicked => rw [hb] at h; cases h
  | outOfFuel => rw [hb] at h; cases h
  | returned ob =>
    rw [hb] at h
    cases ob with
    | none => cases h
    | some b =>
      dsimp only at h
      refine ⟨b, h0, by simpa using h1, hb, ?_⟩
      cases hs : GetElectionAndExitNodeInfo v fuel (startPos cfg currentNumber) currentNumber with
      | panicked => rw [hs] at h; cases h
      | outOfFuel => rw [hs] at h; cases h
      | returned r =>
        rw [hs] at h
        by_cases hle : startPos cfg currentNumber ≤ currentNumber
        · have hr := GetElectionAndExitNodeInfo_returned v fuel _ _ r hle
            (startPos_lt cfg currentNumber) hs
          subst hr
          refine ⟨rfl, ?_⟩
          simp only [finishRoster, Option.getD_some] at h
          injection h with h
          injection h with h
          exact h.symm
        · exfalso
          unfold GetElectionAndExitNodeInfo at hs
          rw [if_pos (by omega)] at hs
          injection hs with hs
          rw [← hs] at h
          simp [finishRoster] at h

/-- On a boundary height with a baseline, given enough fuel and a height below the largest
`uint64`, the builder returns the roster emitted from the merged map, and no error. -/
theorem GenerateMainNodeList_eq (cfg : Params) (v : Verifier) (iter : NodeMap → NodeMap)
    (fuel currentNumber : Nat) (b : Baseline)
    (hbi : 0 < cfg.BroadcastInterval) (hbi2 : cfg.BroadcastInterval < 2 ^ 64)
    (hcn : currentNumber + 1 < 2 ^ 64)
    (hbd : u64add currentNumber 2 % cfg.BroadcastInterval = 0)
    (hb : selectBaseline cfg v (lastBroadcastBlkNumber cfg currentNumber) = .returned (some b))
    (hfuel : currentNumber + 1 - startPos cfg currentNumber < fuel) :
    GenerateMainNodeList cfg v iter fuel currentNumber =
      .returned (emitLists cfg iter (mergedMap cfg v currentNumber b), none) := by
  unfold GenerateMainNodeList
  rw [if_neg (by omega), if_neg (by simpa using hbd)]
  dsimp only
  unfold lastBroadcastBlkNumber at hb
  rw [hb]
  dsimp only
  rw [GetElectionAndExitNodeInfo_eq v fuel _ _ (startPos_le cfg _ hbi2 (by omega)) hcn hfuel]
  rfl

/-! ## Error paths of the builder -/

/-- C1: for a positive BroadcastInterval and a height currentNumber with currentNumber + 2 below
2^64, if (currentNumber + 2) mod BroadcastInterval is not 0 then GenerateMainNodeList returns
an error together with a roster whose four lists are empty, whatever the chain, the visiting
order and the fuel are. -/
theorem GenerateMainNodeList_not_boundary (cfg : Params) (v : Verifier)
    (iter : NodeMap → NodeMap) (fuel currentNumber : Nat)
    (hbi : 0 < cfg.BroadcastInterval) (hcn : currentNumber + 2 < 2 ^ 64)
    (hnb : (currentNumber + 2) % cfg.BroadcastInterval ≠ 0) :
    GenerateMainNodeList cfg v iter fuel currentNumber =
      .returned ({ MinerList := [], CommitteeList := [], Both := [], OfflineList := [] },
        some (.notTimeToGenerate currentNumber)) := by
  unfold GenerateMainNodeList
  rw [if_neg (by omega), u64add_of_lt hcn, if_pos hnb]

/-- Instance on the demo chain: height 3 is no boundary for the interval 4. -/
theorem GenerateMainNodeList_not_boundary_witness :
    0 < demoParams.BroadcastInterval ∧ 3 + 2 < 2 ^ 64 ∧
    (3 + 2) % demoParams.BroadcastInterval ≠ 0 ∧
    GenerateMainNodeList demoParams demoVerifier id 0 3 =
      .returned ({ MinerList := [], CommitteeList := [], Both := [], OfflineList := [] },
        some (.notTimeToGenerate 3)) :=
  ⟨by decide, by decide, by decide,
    GenerateMainNodeList_not_boundary demoParams demoVerifier id 0 3 (by decide) (by decide)
      (by decide)⟩

/-- C2: on a boundary height whose lastBroadcastBlkNumber = currentNumber + 2 - BroadcastInterval
(in uint64 arithmetic) is greater than 0, if the chain has no block at that height then
GenerateMainNodeList returns an error and a roster whose four lists are empty, whatever
transactions the scan window holds. -/
theorem GenerateMainNodeList_missing_baseline (cfg : Params) (v : Verifier)
    (iter : NodeMap → NodeMap) (fuel currentNumber : Nat)
    (hbi : 0 < cfg.BroadcastInterval)
    (hbd : u64add currentNumber 2 % cfg.BroadcastInterval = 0)
    (hlast : 0 < lastBroadcastBlkNumber cfg currentNumber)
    (habs : v.chain.GetBlockByNumber (lastBroadcastBlkNumber cfg currentNumber) = none) :
    GenerateMainNodeList cfg v iter fuel currentNumber =
      .returned ({ MinerList := [], CommitteeList := [], Both := [], OfflineList := [] },
        some (.lastBroadcastBlockMissing (lastBroadcastBlkNumber cfg currentNumber))) := by
  unfold GenerateMainNodeList
  rw [if_neg (by omega), if_neg (by simpa using hbd)]
  unfold lastBroadcastBlkNumber at hlast habs ⊢
  dsimp only
  unfold selectBaseline
  rw [if_neg (by omega), habs]

/-- Instance on the demo chain: height 10 is a boundary whose previous broadcast block, at
height 8, is absent. -/
theorem GenerateMainNodeList_missing_baseline_witness :
    0 < demoParams.BroadcastInterval ∧ u64add 10 2 % demoParams.BroadcastInterval = 0 ∧
    0 < lastBroadcastBlkNumber demoParams 10 ∧
    demoVerifier.chain.GetBlockByNumber (lastBroadcastBlkNumber demoParams 10) = none ∧
    GenerateMainNodeList demoParams demoVerifier id 0 10 =
      .returned ({ MinerList := [], CommitteeList := [], Both := [], OfflineList := [] },
        some (.lastBroadcastBlockMissing 8)) :=
  ⟨by decide, by decide, by decide, rfl,
    GenerateMainNodeList_missing_baseline demoParams demoVerifier id 0 10 (by decide)
      (by decide) (by decide) rfl⟩

/-! ## The merged map and the place of an entry in the roster -/

theorem keysNodup_mergedMap (cfg : Params) (v : Verifier) (currentNumber : Nat) (b : Baseline) :
    KeysNodup (mergedMap cfg v currentNumber b) := by
  unfold mergedMap mergeBaseline
  exact keysNodup_mergeNodeInfo (keysNodup_mergeNodeInfo (keysNodup_mergeNodeInfo
    (keysNodup_storeAll keysNodup_nil _) _ _) _ _) _ _

theorem keyIsID_mergedMap (cfg : Params) (v : Verifier) (currentNumber : Nat) (b : Baseline) :
    KeyIsID (mergedMap cfg v currentNumber b) := by
  unfold mergedMap mergeBaseline
  exact keyIsID_mergeNodeInfo (keyIsID_mergeNodeInfo (keyIsID_mergeNodeInfo
    (keyIsID_storeAll keyIsID_nil _) _ _) _ _) _ _

/-- The value of an `ID` in the merged map: the scanned record when there is one, and
otherwise the first occurrence of the `ID` in the baseline lists taken in the order Miner,
Committee, Both. -/
theorem mapGet_mergeBaseline (cfg : Params) (m : NodeMap) (b : Baseline) (X : String) :
    mapGet (mergeBaseline cfg m b) X =
      (((mapGet m X).or
        ((b.minerList.find? (fun n => n.ID = X)).map (fun n => newPayLoadInfo n cfg.ElectMiner))).or
        ((b.committeeList.find? (fun n => n.ID = X)).map
          (fun n => newPayLoadInfo n cfg.ElectCommittee))).or
        ((b.bothList.find? (fun n => n.ID = X)).map (fun n => newPayLoadInfo n cfg.ElectBoth)) := by
  unfold mergeBaseline
  rw [mapGet_mergeNodeInfo, mapGet_mergeNodeInfo, mapGet_mergeNodeInfo]

theorem mapGet_mergeBaseline_of_some (cfg : Params) (m : NodeMap) (b : Baseline) (X : String)
    (p : ElectionTxPayLoadInfo) (h : mapGet m X = some p) :
    mapGet (mergeBaseline cfg m b) X = some p := by
  rw [mapGet_mergeBaseline, h]; rfl

theorem bucketOf_exit (cfg : Params) : bucketOf cfg cfg.ElectExit = .offline := by
  unfold bucketOf; rw [if_pos rfl]

theorem bucketOf_miner (cfg : Params) (hd : cfg.DistinctTypes) :
    bucketOf cfg cfg.ElectMiner = .miner := by
  unfold bucketOf; rw [if_neg (Ne.symm hd.1), if_pos rfl]

theorem bucketOf_committee (cfg : Params) (hd : cfg.DistinctTypes) :
    bucketOf cfg cfg.ElectCommittee = .committee := by
  unfold bucketOf; rw [if_neg (Ne.symm hd.2.1), if_neg (Ne.symm hd.2.2.2.1), if_pos rfl]

theorem bucketOf_both (cfg : Params) (hd : cfg.DistinctTypes) :
    bucketOf cfg cfg.ElectBoth = .both := by
  unfold bucketOf
  rw [if_neg (Ne.symm hd.2.2.1), if_neg (Ne.symm hd.2.2.2.2.1), if_neg (Ne.symm hd.2.2.2.2.2),
    if_pos rfl]

theorem bucketOf_dropped_iff (cfg : Params) (t : Nat) :
    bucketOf cfg t = .dropped ↔
      t ≠ cfg.ElectExit ∧ t ≠ cfg.ElectMiner ∧ t ≠ cfg.ElectCommittee ∧ t ≠ cfg.ElectBoth := by
  unfold bucketOf
  by_cases h1 : t = cfg.ElectExit
  · simp [h1]
  · by_cases h2 : t = cfg.ElectMiner
    · rw [if_neg h1, if_pos h2]; simp [h2]
    · by_cases h3 : t = cfg.ElectCommittee
      · rw [if_neg h1, if_neg h2, if_pos h3]; simp [h3]
      · by_cases h4 : t = cfg.ElectBoth
        · rw [if_neg h1, if_neg h2, if_neg h3, if_pos h4]; simp [h4]
        · rw [if_neg h1, if_neg h2, if_neg h3, if_neg h4]; simp [h1, h2, h3, h4]

/-- An entry of a map with distinct keys is emitted to the bucket of its type. -/
theorem mem_pick_of_mem (cfg : Params) {l : NodeMap} (X : String) (p : ElectionTxPayLoadInfo)
    (hp : (X, p) ∈ l) : toNodeInfo p ∈ pick cfg (bucketOf cfg p.ElectType) l :=
  (mem_pick cfg _ l _).2 ⟨(X, p), hp, rfl, rfl⟩

/-- A node record of a bucket with the `ID` of a key comes from the value of that key. -/
theorem eq_of_mem_pick (cfg : Params) {l : NodeMap} (hn : KeysNodup l) (hid : KeyIsID l)
    (X : String) (p : ElectionTxPayLoadInfo) (hp : (X, p) ∈ l) (bk : Bucket) (n : NodeInfo)
    (hmem : n ∈ pick cfg bk l) (hX : n.ID = X) :
    n = toNodeInfo p ∧ bk = bucketOf cfg p.ElectType := by
  obtain ⟨e, he, hb, hn'⟩ := (mem_pick cfg bk l n).1 hmem
  have h1 : e.1 = X := by rw [hid e he, ← hX, ← hn']; rfl
  have h2 : mapGet l X = some e.2 := (mem_iff_mapGet hn X e.2).1 (by rw [← h1]; exact he)
  have h3 : mapGet l X = some p := (mem_iff_mapGet hn X p).1 hp
  have h4 : e.2 = p := by rw [h2] at h3; exact Option.some.inj h3
  rw [← h4]
  exact ⟨hn'.symm, hb.symm⟩

/-- In a map with distinct keys, no bucket other than the one of its type holds the `ID` of an
entry. -/
theorem not_mem_pick_of_ne (cfg : Params) {l : NodeMap} (hn : KeysNodup l) (hid : KeyIsID l)
    (X : String) (p : ElectionTxPayLoadInfo) (hp : (X, p) ∈ l) (bk : Bucket)
    (hbk : bk ≠ bucketOf cfg p.ElectType) : ∀ n ∈ pick cfg bk l, n.ID ≠ X :=
  fun n hmem hX => hbk (eq_of_mem_pick cfg hn hid X p hp bk n hmem hX).2

/-- Entries of the visiting sequence: an admissible order visits the merged map. -/
theorem mem_iter_of_mapGet {iter : NodeMap → NodeMap} (hiter : IterOK iter) {m : NodeMap}
    (hn : KeysNodup m) (X : String) (p : ElectionTxPayLoadInfo) (h : mapGet m X = some p) :
    (X, p) ∈ iter m :=
  (hiter m).mem_iff.2 ((mem_iff_mapGet hn X p).2 h)

/-! ## Precedence of the scan over the baseline -/

theorem iterOK_id : IterOK id := fun m => List.Perm.refl m

theorem iterOK_reverse : IterOK List.reverse := fun m => List.reverse_perm m

/-- The roster of a successful call is emitted from the merged map of the baseline in use. -/
theorem roster_eq_emitLists (cfg : Params) (v : Verifier) (iter : NodeMap → NodeMap)
    (fuel currentNumber : Nat) (roster : NodeList) (b : Baseline)
    (hret : GenerateMainNodeList cfg v iter fuel currentNumber = .returned (roster, none))
    (hb : selectBaseline cfg v (lastBroadcastBlkNumber cfg currentNumber) = .returned (some b)) :
    roster = emitLists cfg iter (mergedMap cfg v currentNumber b) := by
  obtain ⟨b', -, -, hb', -, hr⟩ := GenerateMainNodeList_success cfg v iter fuel currentNumber
    roster hret
  rw [hb] at hb'
  injection hb' with hb'
  injection hb' with hb'
  rw [hb']; exact hr

/-- What a successful call does with an entry of the merged map: the record of the entry is in
the list of the bucket of its type, and no other bucket holds a record with its `ID`. -/
theorem roster_entry (cfg : Params) (v : Verifier) (iter : NodeMap → NodeMap)
    (fuel currentNumber : Nat) (roster : NodeList) (b : Baseline) (hiter : IterOK iter)
    (hret : GenerateMainNodeList cfg v iter fuel currentNumber = .returned (roster, none))
    (hb : selectBaseline cfg v (lastBroadcastBlkNumber cfg currentNumber) = .returned (some b))
    (X : String) (p : ElectionTxPayLoadInfo)
    (hp : mapGet (mergedMap cfg v currentNumber b) X = some p) :
    (bucketOf cfg p.ElectType ≠ .dropped →
      toNodeInfo p ∈ roster.bucket (bucketOf cfg p.ElectType)) ∧
    ∀ bk, bk ≠ bucketOf cfg p.ElectType → ∀ n ∈ roster.bucket bk, n.ID ≠ X := by
  have hr := roster_eq_emitLists cfg v iter fuel currentNumber roster b hret hb
  have hn := keysNodup_of_perm (hiter _) (keysNodup_mergedMap cfg v currentNumber b)
  have hid := keyIsID_of_perm (hiter _) (keyIsID_mergedMap cfg v currentNumber b)
  have hmem := mem_iter_of_mapGet hiter (keysNodup_mergedMap cfg v currentNumber b) X p hp
  subst hr
  constructor
  · intro hne
    rw [emitLists_bucket cfg iter _ _ hne]
    exact mem_pick_of_mem cfg X p hmem
  · intro bk hbk n hnmem
    by_cases hd : bk = .dropped
    · subst hd; cases hnmem
    · rw [emitLists_bucket cfg iter _ _ hd] at hnmem
      exact not_mem_pick_of_ne cfg hn hid X p hmem bk hbk n hnmem

/-- C3: precedence of the scan over the baseline.  In a successful call, let the node X occur
in the baseline (its MinerList, CommitteeList or Both) and let the scan of the window map X to
a record.  Then the record, with its scanned fields, is in the output list of its election type
(Committee: CommitteeList, Miner: MinerList, Both: Both, Exit: OfflineList) and no other output
list holds a node with the ID X; so a baseline miner that declared Committee in the window is
in CommitteeList and not in MinerList. -/
theorem scan_precedes_baseline (cfg : Params) (v : Verifier) (iter : NodeMap → NodeMap)
    (fuel currentNumber : Nat) (roster : NodeList) (b : Baseline) (r : ScanResult) (m : NodeMap)
    (X : String) (record : ElectionTxPayLoadInfo)
    (hd : cfg.DistinctTypes) (hiter : IterOK iter)
    (hret : GenerateMainNodeList cfg v iter fuel currentNumber = .returned (roster, none))
    (hb : selectBaseline cfg v (lastBroadcastBlkNumber cfg currentNumber) = .returned (some b))
    (_hX : ∃ n ∈ b.minerList ++ b.committeeList ++ b.bothList, n.ID = X)
    (hscan : GetElectionAndExitNodeInfo v fuel (startPos cfg currentNumber) currentNumber =
      .returned r)
    (hm : r.infoMap = some m) (hrec : mapGet m X = some record) :
    record.ID = X ∧
    (record.ElectType = cfg.ElectCommittee →
      toNodeInfo record ∈ roster.CommitteeList ∧
      ∀ n ∈ roster.MinerList ++ roster.Both ++ roster.OfflineList, n.ID ≠ X) ∧
    (record.ElectType = cfg.ElectMiner →
      toNodeInfo record ∈ roster.MinerList ∧
      ∀ n ∈ roster.CommitteeList ++ roster.Both ++ roster.OfflineList, n.ID ≠ X) ∧
    (record.ElectType = cfg.ElectBoth →
      toNodeInfo record ∈ roster.Both ∧
      ∀ n ∈ roster.MinerList ++ roster.CommitteeList ++ roster.OfflineList, n.ID ≠ X) ∧
    (record.ElectType = cfg.ElectExit →
      toNodeInfo record ∈ roster.OfflineList ∧
      ∀ n ∈ roster.MinerList ++ roster.CommitteeList ++ roster.Both, n.ID ≠ X) := by
  obtain ⟨-, -, -, -, hs, -⟩ := GenerateMainNodeList_success cfg v iter fuel currentNumber
    roster hret
  rw [hscan] at hs
  injection hs with hs
  subst hs
  injection hm with hm
  subst hm
  have hp : mapGet (mergedMap cfg v currentNumber b) X = some record :=
    mapGet_mergeBaseline_of_some cfg _ b X record hrec
  have hkey : record.ID = X := by
    have h1 := (mem_iff_mapGet (keysNodup_mergedMap cfg v currentNumber b) X record).2 hp
    exact (keyIsID_mergedMap cfg v currentNumber b _ h1).symm
  obtain ⟨hin, hout⟩ := roster_entry cfg v iter fuel currentNumber roster b hiter hret hb X
    record hp
  refine ⟨hkey, ?_, ?_, ?_, ?_⟩
  · intro hT
    have hbk : bucketOf cfg record.ElectType = .committee := by
      rw [hT]; exact bucketOf_committee cfg hd
    rw [hbk] at hin hout
    refine ⟨hin (by decide), ?_⟩
    intro n hn
    simp only [List.mem_append] at hn
    rcases hn with (h | h) | h
    · exact hout .miner (by decide) n h
    · exact hout .both (by decide) n h
    · exact hout .offline (by decide) n h
  · intro hT
    have hbk : bucketOf cfg record.ElectType = .miner := by
      rw [hT]; exact bucketOf_miner cfg hd
    rw [hbk] at hin hout
    refine ⟨hin (by decide), ?_⟩
    intro n hn
    simp only [List.mem_append] at hn
    rcases hn with (h | h) | h
    · exact hout .committee (by decide) n h
    · exact hout .both (by decide) n h
    · exact hout .offline (by decide) n h
  · intro hT
    have hbk : bucketOf cfg record.ElectType = .both := by
      rw [hT]; exact bucketOf_both cfg hd
    rw [hbk] at hin hout
    refine ⟨hin (by decide), ?_⟩
    intro n hn
    simp only [List.mem_append] at hn
    rcases hn with (h | h) | h
    · exact hout .miner (by decide) n h
    · exact hout .committee (by decide) n h
    · exact hout .offline (by decide) n h
  · intro hT
    have hbk : bucketOf cfg record.ElectType = .offline := by
      rw [hT]; exact bucketOf_exit cfg
    rw [hbk] at hin hout
    refine ⟨hin (by decide), ?_⟩
    intro n hn
    simp only [List.mem_append] at hn
    rcases hn with (h | h) | h
    · exact hout .miner (by decide) n h
    · exact hout .committee (by decide) n h
    · exact hout .both (by decide) n h

/-- Instance on the demo chain at height 6: the baseline miner `m1` declared Committee in the
window. -/
theorem scan_precedes_baseline_witness :
    demoParams.DistinctTypes ∧ IterOK id ∧
    GenerateMainNodeList demoParams demoVerifier id 10 6 = .returned (demoRoster6, none) ∧
    selectBaseline demoParams demoVerifier (lastBroadcastBlkNumber demoParams 6) =
      .returned (some demoBaseline4) ∧
    demoNode "m1" ∈ demoBaseline4.minerList ∧
    demoScanned "m1" 1 5 ∈ demoRoster6.CommitteeList ∧
    ∀ n ∈ demoRoster6.MinerList ++ demoRoster6.Both ++ demoRoster6.OfflineList, n.ID ≠ "m1" :=
  ⟨by decide, iterOK_id, by decide, by decide, by decide,
    ((scan_precedes_baseline demoParams demoVerifier id 10 6 demoRoster6 demoBaseline4 _ _ "m1"
      { demoPayload "m1" 1 5 with Account := 42 } (by decide) iterOK_id (by decide) (by decide)
      ⟨demoNode "m1", by decide, by decide⟩ rfl rfl (by decide)).2.1 (by decide)).1,
    ((scan_precedes_baseline demoParams demoVerifier id 10 6 demoRoster6 demoBaseline4 _ _ "m1"
      { demoPayload "m1" 1 5 with Account := 42 } (by decide) iterOK_id (by decide) (by decide)
      ⟨demoNode "m1", by decide, by decide⟩ rfl rfl (by decide)).2.1 (by decide)).2⟩

/-! ## Last write wins -/

/-- The map of the scanner holds, for each `ID`, the last record of the window. -/
theorem mapGet_scan (v : Verifier) (blkNumStart blkNumEnd : Nat) (X : String) :
    mapGet (storeAll [] (windowRecords v blkNumStart blkNumEnd)) X =
      lastRecord v blkNumStart blkNumEnd X := by
  rw [mapGet_storeAll, mapGet_nil, Option.or_none]; rfl

/-- C4: last write wins in the scanner.  For a range blkNumStart <= blkNumEnd of uint64
heights and a node X, whenever the scanner returns, it returns no error and a map that sends
X to exactly the last record of X, in increasing block height and then in-block order, among
the transactions of present blocks that decode to an election payload and whose signer
recovery succeeds (no field of an earlier record survives); and it does return when the end is
below the largest uint64 and the fuel suffices.  So when the last window record of X is an
Exit declaration, a successful GenerateMainNodeList puts X in OfflineList and in no other
list. -/
theorem scanner_last_write_wins (v : Verifier) (fuel blkNumStart blkNumEnd : Nat) (X : String)
    (hle : blkNumStart ≤ blkNumEnd) (hend : blkNumEnd < 2 ^ 64) :
    (∀ r, GetElectionAndExitNodeInfo v fuel blkNumStart blkNumEnd = .returned r →
      r.err = none ∧
      ∃ m, r.infoMap = some m ∧ mapGet m X = lastRecord v blkNumStart blkNumEnd X) ∧
    (blkNumEnd + 1 < 2 ^ 64 → blkNumEnd + 1 - blkNumStart < fuel →
      ∃ r, GetElectionAndExitNodeInfo v fuel blkNumStart blkNumEnd = .returned r) ∧
    (∀ (cfg : Params) (iter : NodeMap → NodeMap) (currentNumber : Nat) (roster : NodeList)
      (record : ElectionTxPayLoadInfo), IterOK iter →
      GenerateMainNodeList cfg v iter fuel currentNumber = .returned (roster, none) →
      lastRecord v (startPos cfg currentNumber) currentNumber X = some record →
      record.ElectType = cfg.ElectExit →
      toNodeInfo record ∈ roster.OfflineList ∧
      ∀ n ∈ roster.MinerList ++ roster.CommitteeList ++ roster.Both, n.ID ≠ X) := by
  refine ⟨?_, ?_, ?_⟩
  · intro r hr
    have := GetElectionAndExitNodeInfo_returned v fuel blkNumStart blkNumEnd r hle
      (by omega) hr
    subst this
    exact ⟨rfl, _, rfl, mapGet_scan v blkNumStart blkNumEnd X⟩
  · intro h1 h2
    exact ⟨_, GetElectionAndExitNodeInfo_eq v fuel blkNumStart blkNumEnd hle h1 h2⟩
  · intro cfg iter currentNumber roster record hiter hret hlast hT
    obtain ⟨b, -, -, hb, -, -⟩ := GenerateMainNodeList_success cfg v iter fuel currentNumber
      roster hret
    have hp : mapGet (mergedMap cfg v currentNumber b) X = some record :=
      mapGet_mergeBaseline_of_some cfg _ b X record
        (by rw [mapGet_scan]; exact hlast)
    obtain ⟨hin, hout⟩ := roster_entry cfg v iter fuel currentNumber roster b hiter hret hb X
      record hp
    have hbk : bucketOf cfg record.ElectType = .offline := by
      rw [hT]; exact bucketOf_exit cfg
    rw [hbk] at hin hout
    refine ⟨hin (by decide), ?_⟩
    intro n hn
    simp only [List.mem_append] at hn
    rcases hn with (h | h) | h
    · exact hout .miner (by decide) n h
    · exact hout .committee (by decide) n h
    · exact hout .both (by decide) n h

/-- Instance on the demo chain, window 0 to 2: `x` declared Miner with wealth 5 and then Exit
with wealth 8. -/
theorem scanner_last_write_wins_witness :
    0 ≤ 2 ∧ 2 < 2 ^ 64 ∧
    lastRecord demoVerifier 0 2 "x" = some { demoPayload "x" 3 8 with Account := 42 } ∧
    (∃ r, GetElectionAndExitNodeInfo demoVerifier 10 0 2 = .returned r) ∧
    demoScanned "x" 3 8 ∈ demoRoster2.OfflineList ∧
    ∀ n ∈ demoRoster2.MinerList ++ demoRoster2.CommitteeList ++ demoRoster2.Both, n.ID ≠ "x" :=
  ⟨by decide, by decide, by decide,
    (scanner_last_write_wins demoVerifier 10 0 2 "x" (by decide) (by decide)).2.1 (by decide)
      (by decide),
    ((scanner_last_write_wins demoVerifier 10 0 2 "x" (by decide) (by decide)).2.2 demoParams id
      2 demoRoster2 { demoPayload "x" 3 8 with Account := 42 } iterOK_id (by decide)
      (by decide) (by decide)).1,
    ((scanner_last_write_wins demoVerifier 10 0 2 "x" (by decide) (by decide)).2.2 demoParams id
      2 demoRoster2 { demoPayload "x" 3 8 with Account := 42 } iterOK_id (by decide)
      (by decide) (by decide)).2⟩

/-! ## Partition of the merged map -/

/-- The number of times the key of an entry occurs among the `ID`s of the four buckets taken
together: once, or never when the `switch` has no case for the type of the entry. -/
theorem count_all_picks (cfg : Params) {l : NodeMap} (hn : KeysNodup l) (hid : KeyIsID l)
    (X : String) (p : ElectionTxPayLoadInfo) (hp : (X, p) ∈ l) :
    ((pick cfg .miner l ++ pick cfg .committee l ++ pick cfg .both l ++
      pick cfg .offline l).map NodeInfo.ID).count X =
      if bucketOf cfg p.ElectType = .dropped then 0 else 1 := by
  have key : ∀ bk, ((pick cfg bk l).map NodeInfo.ID).count X =
      if bk = bucketOf cfg p.ElectType then 1 else 0 := by
    intro bk
    by_cases h : bk = bucketOf cfg p.ElectType
    · rw [if_pos h]; exact count_pick_ids_one cfg bk hn hid X p hp h.symm
    · rw [if_neg h]
      apply count_pick_ids_zero cfg bk hid X
      intro p' hp' hb
      have h1 := (mem_iff_mapGet hn X p').1 hp'
      have h2 := (mem_iff_mapGet hn X p).1 hp
      rw [h1] at h2
      rw [Option.some.inj h2] at hb
      exact h hb.symm
  simp only [List.map_append, List.count_append, key]
  cases bucketOf cfg p.ElectType <;> simp

/-- C5, counterexample: at height 2 of the demo chain the merged map holds the node `y`, whose
scanned declaration has the election type 7, and the call succeeds with a roster in which no
list holds `y`. -/
theorem partition_omits_unknown_type :
    GenerateMainNodeList demoParams demoVerifier id 10 2 = .returned (demoRoster2, none) ∧
    selectBaseline demoParams demoVerifier (lastBroadcastBlkNumber demoParams 2) =
      .returned (some demoBaseline0) ∧
    ("y", { demoPayload "y" 7 5 with Account := 42 }) ∈
      mergedMap demoParams demoVerifier 2 demoBaseline0 ∧
    (demoRoster2.all.map NodeInfo.ID).count "y" = 0 := by
  refine ⟨by decide, by decide, by decide, by decide⟩

/-- C5, amended: in a successful call, every entry of the merged map whose election type is
one of the four constants is emitted to the list of its type, and its key occurs exactly once
among the IDs of the four lists together; the key of an entry with any other election type
occurs in none of the four lists; and every emitted record comes from an entry of the merged
map. -/
theorem partition_of_merged (cfg : Params) (v : Verifier) (iter : NodeMap → NodeMap)
    (fuel currentNumber : Nat) (roster : NodeList) (b : Baseline)
    (hd : cfg.DistinctTypes) (hiter : IterOK iter)
    (hret : GenerateMainNodeList cfg v iter fuel currentNumber = .returned (roster, none))
    (hb : selectBaseline cfg v (lastBroadcastBlkNumber cfg currentNumber) = .returned (some b)) :
    (∀ e ∈ mergedMap cfg v currentNumber b,
      (e.2.ElectType = cfg.ElectMiner → toNodeInfo e.2 ∈ roster.MinerList) ∧
      (e.2.ElectType = cfg.ElectCommittee → toNodeInfo e.2 ∈ roster.CommitteeList) ∧
      (e.2.ElectType = cfg.ElectBoth → toNodeInfo e.2 ∈ roster.Both) ∧
      (e.2.ElectType = cfg.ElectExit → toNodeInfo e.2 ∈ roster.OfflineList) ∧
      (e.2.ElectType = cfg.ElectMiner ∨ e.2.ElectType = cfg.ElectCommittee ∨
        e.2.ElectType = cfg.ElectBoth ∨ e.2.ElectType = cfg.ElectExit →
        (roster.all.map NodeInfo.ID).count e.1 = 1) ∧
      (e.2.ElectType ≠ cfg.ElectMiner ∧ e.2.ElectType ≠ cfg.ElectCommittee ∧
        e.2.ElectType ≠ cfg.ElectBoth ∧ e.2.ElectType ≠ cfg.ElectExit →
        (roster.all.map NodeInfo.ID).count e.1 = 0)) ∧
    (∀ n ∈ roster.all, ∃ e ∈ mergedMap cfg v currentNumber b, n = toNodeInfo e.2) := by
  have hr := roster_eq_emitLists cfg v iter fuel currentNumber roster b hret hb
  have hn := keysNodup_of_perm (hiter _) (keysNodup_mergedMap cfg v currentNumber b)
  have hid := keyIsID_of_perm (hiter _) (keyIsID_mergedMap cfg v currentNumber b)
  rw [emitLists_eq] at hr
  subst hr
  constructor
  · rintro ⟨k, p⟩ he
    have hmem : (k, p) ∈ iter (mergedMap cfg v currentNumber b) := (hiter _).mem_iff.2 he
    have hin := mem_pick_of_mem cfg k p hmem
    have hcount := count_all_picks cfg hn hid k p hmem
    dsimp only
    refine ⟨?_, ?_, ?_, ?_, ?_, ?_⟩
    · intro hT; rw [hT, bucketOf_miner cfg hd] at hin; exact hin
    · intro hT; rw [hT, bucketOf_committee cfg hd] at hin; exact hin
    · intro hT; rw [hT, bucketOf_both cfg hd] at hin; exact hin
    · intro hT; rw [hT, bucketOf_exit cfg] at hin; exact hin
    · intro hT
      have : bucketOf cfg p.ElectType ≠ .dropped := by
        rw [Ne, bucketOf_dropped_iff]; intro h; rcases hT with h1 | h1 | h1 | h1
        · exact h.2.1 h1
        · exact h.2.2.1 h1
        · exact h.2.2.2 h1
        · exact h.1 h1
      rw [if_neg this] at hcount
      exact hcount
    · intro hT
      have : bucketOf cfg p.ElectType = .dropped :=
        (bucketOf_dropped_iff cfg _).2 ⟨hT.2.2.2, hT.1, hT.2.1, hT.2.2.1⟩
      rw [if_pos this] at hcount
      exact hcount
  · intro n hnmem
    simp only [NodeList.all, List.mem_append] at hnmem
    have aux : ∀ bk, n ∈ pick cfg bk (iter (mergedMap cfg v currentNumber b)) →
        ∃ e ∈ mergedMap cfg v currentNumber b, n = toNodeInfo e.2 := by
      intro bk h
      obtain ⟨e, he, -, hn'⟩ := (mem_pick cfg bk _ n).1 h
      exact ⟨e, (hiter _).mem_iff.1 he, hn'.symm⟩
    rcases hnmem with ((h | h) | h) | h
    · exact aux _ h
    · exact aux _ h
    · exact aux _ h
    · exact aux _ h

/-- Instance on the demo chain at height 6: the baseline miner `m2` is emitted exactly once. -/
theorem partition_of_merged_witness :
    demoParams.DistinctTypes ∧ IterOK id ∧
    GenerateMainNodeList demoParams demoVerifier id 10 6 = .returned (demoRoster6, none) ∧
    selectBaseline demoParams demoVerifier (lastBroadcastBlkNumber demoParams 6) =
      .returned (some demoBaseline4) ∧
    ("m2", newPayLoadInfo (demoNode "m2") 0) ∈ mergedMap demoParams demoVerifier 6 demoBaseline4 ∧
    (demoRoster6.all.map NodeInfo.ID).count "m2" = 1 :=
  ⟨by decide, iterOK_id, by decide, by decide, by decide,
    ((partition_of_merged demoParams demoVerifier id 10 6 demoRoster6 demoBaseline4 (by decide)
      iterOK_id (by decide) (by decide)).1 ("m2", newPayLoadInfo (demoNode "m2") 0)
      (by decide)).2.2.2.2.1 (Or.inl rfl)⟩

/-! ## The genesis baseline -/

theorem foldl_bootMinerStep (cfg : Params) (rest : List String) (acc : List NodeInfo) :
    rest.foldl (bootMinerStep cfg) acc =
      acc ++ (rest.filterMap cfg.ParseNode).map bootNodeInfo := by
  induction rest generalizing acc with
  | nil => simp
  | cons s rest ih =>
    rw [List.foldl_cons, ih]
    unfold bootMinerStep
    cases h : cfg.ParseNode s with
    | none => rw [List.filterMap_cons_none h]
    | some n => rw [List.filterMap_cons_some h]; simp

theorem genesisBaseline_eq (cfg : Params) (b0 : String) (rest : List String)
    (hboot : cfg.MainnetBootnodes = b0 :: rest) :
    genesisBaseline cfg = .returned (bootstrapBaseline cfg b0 rest) := by
  unfold genesisBaseline bootstrapBaseline
  rw [hboot]
  dsimp only
  rw [foldl_bootMinerStep]
  cases cfg.ParseNode b0 <;> simp

/-- C6, counterexample: with a first bootstrap node that does not parse, the genesis baseline of
the boundary height 2 has an empty committee list, not a list of exactly one entry. -/
theorem genesis_committee_can_be_empty :
    u64add 2 2 % demoParamsBad.BroadcastInterval = 0 ∧
    lastBroadcastBlkNumber demoParamsBad 2 = 0 ∧
    selectBaseline demoParamsBad demoVerifier (lastBroadcastBlkNumber demoParamsBad 2) =
      .returned (some { minerList := [bootNodeInfo { ID := "b1", IP := "10.0.0.1" },
                          bootNodeInfo { ID := "b2", IP := "10.0.0.1" }]
                        committeeList := []
                        bothList := [] }) := by
  refine ⟨by decide, by decide, by decide⟩

/-- C6, amended: on a boundary height with lastBroadcastBlkNumber = 0 and a non-empty bootstrap
list, the baseline used by GenerateMainNodeList is built from the bootstrap list and from no
block: the committee list holds the entry of the first bootstrap node when that node parses
and is empty otherwise, the miner list holds one entry for each remaining bootstrap node that
parses, in bootstrap order, the Both list is empty, and every entry has Wealth = 10000.  When
every bootstrap node parses, the committee list has exactly one entry and the miner list has
one entry for each remaining node. -/
theorem genesis_baseline (cfg : Params) (v : Verifier) (iter : NodeMap → NodeMap)
    (fuel currentNumber : Nat) (b0 : String) (rest : List String)
    (hbi : 0 < cfg.BroadcastInterval)
    (hbd : u64add currentNumber 2 % cfg.BroadcastInterval = 0)
    (hlast : lastBroadcastBlkNumber cfg currentNumber = 0)
    (hboot : cfg.MainnetBootnodes = b0 :: rest) :
    selectBaseline cfg v (lastBroadcastBlkNumber cfg currentNumber) =
      .returned (some (bootstrapBaseline cfg b0 rest)) ∧
    GenerateMainNodeList cfg v iter fuel currentNumber =
      finishRoster cfg iter (bootstrapBaseline cfg b0 rest)
        (GetElectionAndExitNodeInfo v fuel (startPos cfg currentNumber) currentNumber) ∧
    (bootstrapBaseline cfg b0 rest).bothList = [] ∧
    (∀ n ∈ (bootstrapBaseline cfg b0 rest).committeeList ++
        (bootstrapBaseline cfg b0 rest).minerList, n.Wealth = 10000) ∧
    (∀ node, cfg.ParseNode b0 = some node →
      (bootstrapBaseline cfg b0 rest).committeeList =
        [{ TPS := 0, IP := node.IP, ID := node.ID, Wealth := 10000, OnlineTime := 0,
           TxHash := 0, Value := 0, Account := 0 }]) ∧
    (cfg.ParseNode b0 = none → (bootstrapBaseline cfg b0 rest).committeeList = []) ∧
    ((∀ s ∈ b0 :: rest, (cfg.ParseNode s).isSome) →
      (bootstrapBaseline cfg b0 rest).committeeList.length = 1 ∧
      (bootstrapBaseline cfg b0 rest).minerList.length = rest.length) := by
  have hsel : selectBaseline cfg v (lastBroadcastBlkNumber cfg currentNumber) =
      .returned (some (bootstrapBaseline cfg b0 rest)) := by
    unfold selectBaseline
    rw [if_pos hlast, genesisBaseline_eq cfg b0 rest hboot]
  refine ⟨hsel, ?_, rfl, ?_, ?_, ?_, ?_⟩
  · unfold GenerateMainNodeList
    rw [if_neg (by omega), if_neg (by simpa using hbd)]
    unfold lastBroadcastBlkNumber at hsel
    dsimp only
    rw [hsel]
  · intro n hn
    unfold bootstrapBaseline at hn
    simp only [List.mem_append, List.mem_map] at hn
    rcases hn with ⟨x, -, rfl⟩ | ⟨x, -, rfl⟩ <;> rfl
  · intro node hnode
    unfold bootstrapBaseline
    rw [hnode]; rfl
  · intro hnone
    unfold bootstrapBaseline
    rw [hnone]; rfl
  · intro hall
    unfold bootstrapBaseline
    constructor
    · obtain ⟨node, hnode⟩ := Option.isSome_iff_exists.1 (hall b0 (List.mem_cons_self _ _))
      rw [hnode]; rfl
    · dsimp only
      rw [List.length_map]
      have : ∀ l : List String, (∀ s ∈ l, (cfg.ParseNode s).isSome) →
          (l.filterMap cfg.ParseNode).length = l.length := by
        intro l
        induction l with
        | nil => intro _; rfl
        | cons s l ih =>
          intro h
          obtain ⟨node, hnode⟩ := Option.isSome_iff_exists.1 (h s (List.mem_cons_self _ _))
          rw [List.filterMap_cons_some hnode, List.length_cons, List.length_cons,
            ih (fun s hs => h s (List.mem_cons_of_mem _ hs))]
      exact this rest (fun s hs => hall s (List.mem_cons_of_mem _ hs))

/-- Instance on the demo chain at height 2, the genesis epoch. -/
theorem genesis_baseline_witness :
    0 < demoParams.BroadcastInterval ∧ u64add 2 2 % demoParams.BroadcastInterval = 0 ∧
    lastBroadcastBlkNumber demoParams 2 = 0 ∧
    demoParams.MainnetBootnodes = "b0" :: ["b1", "b2"] ∧
    selectBaseline demoParams demoVerifier (lastBroadcastBlkNumber demoParams 2) =
      .returned (some (bootstrapBaseline demoParams "b0" ["b1", "b2"])) ∧
    bootstrapBaseline demoParams "b0" ["b1", "b2"] = demoBaseline0 :=
  ⟨by decide, by decide, by decide, rfl,
    (genesis_baseline demoParams demoVerifier id 10 2 "b0" ["b1", "b2"] (by decide) (by decide)
      (by decide) rfl).1, by decide⟩

/-! ## The scan window -/

/-- C7: scan window bounds.  On a boundary height for which a baseline is available,
GenerateMainNodeList calls the scanner on the range from startPos to currentNumber, where
startPos = max(0, currentNumber - BroadcastInterval - 1), which is 0 when
currentNumber <= BroadcastInterval + 1 (no uint64 underflow); a scanner call that returns
has read exactly the heights of that range, in increasing order.  The interval is a uint64
constant whose successor is representable, as the constant expression BroadcastInterval + 1 of
the source requires.  With BroadcastInterval = 100 and currentNumber = 98 the boundary check
passes, lastBroadcastBlkNumber is 0, the genesis branch is taken and the window is [0, 98]. -/
theorem scan_window_bounds (cfg : Params) (v : Verifier) (iter : NodeMap → NodeMap)
    (fuel currentNumber : Nat) (b : Baseline)
    (hbi : 0 < cfg.BroadcastInterval) (hbi1 : cfg.BroadcastInterval + 1 < 2 ^ 64)
    (hcn : currentNumber < 2 ^ 64)
    (hbd : u64add currentNumber 2 % cfg.BroadcastInterval = 0)
    (hb : selectBaseline cfg v (lastBroadcastBlkNumber cfg currentNumber) = .returned (some b)) :
    GenerateMainNodeList cfg v iter fuel currentNumber =
      finishRoster cfg iter b
        (GetElectionAndExitNodeInfo v fuel (currentNumber - cfg.BroadcastInterval - 1)
          currentNumber) ∧
    startPos cfg currentNumber = currentNumber - cfg.BroadcastInterval - 1 ∧
    (startPos cfg currentNumber : Int) =
      max 0 ((currentNumber : Int) - (cfg.BroadcastInterval : Int) - 1) ∧
    (currentNumber ≤ cfg.BroadcastInterval + 1 → startPos cfg currentNumber = 0) ∧
    (∀ r, GetElectionAndExitNodeInfo v fuel (currentNumber - cfg.BroadcastInterval - 1)
        currentNumber = .returned r →
      r.reads = List.range' (currentNumber - cfg.BroadcastInterval - 1)
        (currentNumber + 1 - (currentNumber - cfg.BroadcastInterval - 1))) ∧
    (∀ (cfg' : Params) (v' : Verifier) (iter' : NodeMap → NodeMap) (fuel' : Nat),
      cfg'.BroadcastInterval = 100 →
      u64add 98 2 % cfg'.BroadcastInterval = 0 ∧ lastBroadcastBlkNumber cfg' 98 = 0 ∧
      startPos cfg' 98 = 0 ∧
      GenerateMainNodeList cfg' v' iter' fuel' 98 =
        match genesisBaseline cfg' with
        | .returned b' => finishRoster cfg' iter' b' (GetElectionAndExitNodeInfo v' fuel' 0 98)
        | .panicked => .panicked
        | .outOfFuel => .outOfFuel) := by
  have hs := startPos_eq cfg currentNumber hbi1 hcn
  refine ⟨?_, hs, ?_, ?_, ?_, ?_⟩
  · unfold GenerateMainNodeList
    rw [if_neg (by omega), if_neg (by simpa using hbd)]
    unfold lastBroadcastBlkNumber at hb
    dsimp only
    rw [hb, hs]
  · rw [hs]; omega
  · intro h; rw [hs]; omega
  · intro r hr
    have := GetElectionAndExitNodeInfo_returned v fuel _ _ r (by omega) (by omega) hr
    rw [this]; rfl
  · intro cfg' v' iter' fuel' h100
    have h1 : u64add 98 2 % cfg'.BroadcastInterval = 0 := by rw [h100]; decide
    have h2 : lastBroadcastBlkNumber cfg' 98 = 0 := by
      unfold lastBroadcastBlkNumber; rw [h100]; decide
    have h3 : startPos cfg' 98 = 0 := by unfold startPos; rw [h100]; decide
    refine ⟨h1, h2, h3, ?_⟩
    unfold GenerateMainNodeList
    rw [if_neg (by omega), if_neg (by simpa using h1)]
    unfold lastBroadcastBlkNumber at h2
    dsimp only
    rw [h2, h3]
    unfold selectBaseline
    rw [if_pos rfl]
    cases genesisBaseline cfg' <;> rfl

/-- Instance on the demo chain at height 6, whose window starts at height 1. -/
theorem scan_window_bounds_witness :
    0 < demoParams.BroadcastInterval ∧ demoParams.BroadcastInterval + 1 < 2 ^ 64 ∧
    6 < 2 ^ 64 ∧ u64add 6 2 % demoParams.BroadcastInterval = 0 ∧
    selectBaseline demoParams demoVerifier (lastBroadcastBlkNumber demoParams 6) =
      .returned (some demoBaseline4) ∧
    startPos demoParams 6 = 6 - demoParams.BroadcastInterval - 1 ∧
    GenerateMainNodeList demoParams demoVerifier id 10 6 =
      finishRoster demoParams id demoBaseline4
        (GetElectionAndExitNodeInfo demoVerifier 10 (6 - demoParams.BroadcastInterval - 1) 6) :=
  ⟨by decide, by decide, by decide, by decide, by decide,
    (scan_window_bounds demoParams demoVerifier id 10 6 demoBaseline4 (by decide) (by decide)
      (by decide) (by decide) (by decide)).2.1,
    (scan_window_bounds demoParams demoVerifier id 10 6 demoBaseline4 (by decide) (by decide)
      (by decide) (by decide) (by decide)).1⟩

/-! ## Determinism up to the visiting order -/

/-- Two permutations of each other without a repeated `ID` sort to the same list. -/
theorem sortByID_eq_of_perm {l₁ l₂ : List NodeInfo} (h : l₁.Perm l₂)
    (hnd : (l₁.map NodeInfo.ID).Nodup) : sortByID l₁ = sortByID l₂ := by
  haveI : IsTotal NodeInfo (fun a b => a.ID ≤ b.ID) := ⟨fun a b => le_total a.ID b.ID⟩
  haveI : IsTrans NodeInfo (fun a b => a.ID ≤ b.ID) := ⟨fun _ _ _ h₁ h₂ => le_trans h₁ h₂⟩
  haveI : IsAntisymm NodeInfo (fun a b => a.ID < b.ID) :=
    ⟨fun _ _ h₁ h₂ => absurd h₁ (lt_asymm h₂)⟩
  have strict : ∀ l : List NodeInfo, l.Perm l₁ →
      List.Sorted (fun a b => a.ID < b.ID) (sortByID l) := by
    intro l hl
    have hs : List.Sorted (fun a b : NodeInfo => a.ID ≤ b.ID) (sortByID l) :=
      List.sorted_insertionSort _ l
    have hp : (sortByID l).Perm l₁ := (List.perm_insertionSort _ l).trans hl
    have hne : List.Pairwise (fun a b : NodeInfo => a.ID ≠ b.ID) (sortByID l) :=
      List.pairwise_map.1 (((hp.map NodeInfo.ID).nodup_iff).2 hnd)
    exact (List.Pairwise.and hs hne).imp (fun ⟨h₁, h₂⟩ => lt_of_le_of_ne h₁ h₂)
  apply List.eq_of_perm_of_sorted _ (strict l₁ (List.Perm.refl _)) (strict l₂ h.symm)
  exact (List.perm_insertionSort _ l₁).trans (h.trans (List.perm_insertionSort _ l₂).symm)

/-- The four ways a call of the builder can end, none of which depends on the visiting order
except through the order of the emitted lists. -/
theorem GenerateMainNodeList_cases (cfg : Params) (v : Verifier) (fuel currentNumber : Nat) :
    (∀ iter, GenerateMainNodeList cfg v iter fuel currentNumber = .panicked) ∨
    (∀ iter, GenerateMainNodeList cfg v iter fuel currentNumber = .outOfFuel) ∨
    (∃ e, ∀ iter, GenerateMainNodeList cfg v iter fuel currentNumber =
      .returned ({}, some e)) ∨
    (∃ b, ∀ iter, GenerateMainNodeList cfg v iter fuel currentNumber =
      .returned (emitLists cfg iter (mergedMap cfg v currentNumber b), none)) := by
  unfold GenerateMainNodeList
  by_cases h0 : cfg.BroadcastInterval = 0
  · left; intro iter; rw [if_pos h0]
  by_cases h1 : u64add currentNumber 2 % cfg.BroadcastInterval ≠ 0
  · right; right; left
    exact ⟨_, fun iter => by rw [if_neg h0, if_pos h1]⟩
  simp only [if_neg h0, if_neg h1]
  cases selectBaseline cfg v (u64sub (u64add currentNumber 2) cfg.BroadcastInterval) with
  | panicked => left; intro iter; rfl
  | outOfFuel => right; left; intro iter; rfl
  | returned ob =>
    cases ob with
    | none => right; right; left; exact ⟨_, fun iter => rfl⟩
    | some b =>
      dsimp only
      cases hs : GetElectionAndExitNodeInfo v fuel (startPos cfg currentNumber) currentNumber with
      | panicked => left; intro iter; rfl
      | outOfFuel => right; left; intro iter; rfl
      | returned r =>
        by_cases hle : startPos cfg currentNumber ≤ currentNumber
        · have hr := GetElectionAndExitNodeInfo_returned v fuel _ _ r hle
            (startPos_lt cfg currentNumber) hs
          subst hr
          right; right; right
          exact ⟨b, fun iter => rfl⟩
        · unfold GetElectionAndExitNodeInfo at hs
          rw [if_pos (by omega)] at hs
          injection hs with hs
          subst hs
          right; right; left
          exact ⟨_, fun iter => rfl⟩

/-- The ways a call of the builder can end do not depend on the fuel either, except that the
fuel can run out: the call panics for every fuel, or returns one and the same error for every
fuel, or, for every fuel that does not run out, returns the roster emitted from the merged
map. -/
theorem GenerateMainNodeList_cases_fuel (cfg : Params) (v : Verifier) (currentNumber : Nat) :
    (∀ fuel iter, GenerateMainNodeList cfg v iter fuel currentNumber = .panicked) ∨
    (∃ e, ∀ fuel iter, GenerateMainNodeList cfg v iter fuel currentNumber =
      .returned ({}, some e)) ∨
    (∃ b, ∀ fuel iter, GenerateMainNodeList cfg v iter fuel currentNumber = .outOfFuel ∨
      GenerateMainNodeList cfg v iter fuel currentNumber =
        .returned (emitLists cfg iter (mergedMap cfg v currentNumber b), none)) := by
  unfold GenerateMainNodeList
  by_cases h0 : cfg.BroadcastInterval = 0
  · left; intro fuel iter; rw [if_pos h0]
  by_cases h1 : u64add currentNumber 2 % cfg.BroadcastInterval ≠ 0
  · right; left
    exact ⟨_, fun fuel iter => by rw [if_neg h0, if_pos h1]⟩
  simp only [if_neg h0, if_neg h1]
  cases selectBaseline cfg v (u64sub (u64add currentNumber 2) cfg.BroadcastInterval) with
  | panicked => left; intro fuel iter; rfl
  | outOfFuel => right; right; exact ⟨⟨[], [], []⟩, fun fuel iter => Or.inl rfl⟩
  | returned ob =>
    cases ob with
    | none => right; left; exact ⟨_, fun fuel iter => rfl⟩
    | some b =>
      dsimp only
      by_cases hle : startPos cfg currentNumber ≤ currentNumber
      · right; right
        refine ⟨b, fun fuel iter => ?_⟩
        cases hs : GetElectionAndExitNodeInfo v fuel (startPos cfg currentNumber)
            currentNumber with
        | panicked =>
          exfalso
          unfold GetElectionAndExitNodeInfo at hs
          rw [if_neg (by omega)] at hs
          cases hl : scanLoop v currentNumber fuel (startPos cfg currentNumber)
              { infoMap := [], reads := [] } <;> rw [hl] at hs <;> cases hs
        | outOfFuel => left; rfl
        | returned r =>
          have hr := GetElectionAndExitNodeInfo_returned v fuel _ _ r hle
            (startPos_lt cfg currentNumber) hs
          subst hr
          right; rfl
      · right; left
        refine ⟨.blockNumberIndexErr, fun fuel iter => ?_⟩
        rw [GetElectionAndExitNodeInfo_inverted v fuel _ _ (by omega)]
        rfl

theorem sameUpToOrder_emitLists (cfg : Params) (iter₁ iter₂ : NodeMap → NodeMap)
    (h₁ : IterOK iter₁) (h₂ : IterOK iter₂) {m : NodeMap} (hn : KeysNodup m) (hid : KeyIsID m) :
    SameUpToOrder (.returned (emitLists cfg iter₁ m, none))
      (.returned (emitLists cfg iter₂ m, none)) := by
  have hp : (iter₁ m).Perm (iter₂ m) := (h₁ m).trans (h₂ m).symm
  have hn₁ := keysNodup_of_perm (h₁ m) hn
  have hid₁ := keyIsID_of_perm (h₁ m) hid
  have hs : ∀ bk, sortByID (pick cfg bk (iter₁ m)) = sortByID (pick cfg bk (iter₂ m)) :=
    fun bk => sortByID_eq_of_perm (pick_perm cfg bk hp) (nodup_pick_ids cfg bk hn₁ hid₁)
  rw [emitLists_eq, emitLists_eq]
  refine ⟨rfl, ⟨pick_perm cfg _ hp, pick_perm cfg _ hp, pick_perm cfg _ hp, pick_perm cfg _ hp⟩,
    ?_⟩
  simp only [NodeList.sortedByID, hs]

/-- C9: determinism up to order.  For every chain, bootstrap list, interval and height, two
executions of GenerateMainNodeList under any two admissible visiting orders of the merged map
end the same way and with the same error status, each of MinerList, CommitteeList, Both and
OfflineList of one run is a permutation of the corresponding list of the other run, and the
two rosters are equal after sorting each list by ID.  This holds for two runs with the same
fuel, and for two runs with any two amounts of fuel neither of which runs out. -/
theorem GenerateMainNodeList_deterministic_up_to_order (cfg : Params) (v : Verifier)
    (iter₁ iter₂ : NodeMap → NodeMap) (fuel₁ fuel₂ currentNumber : Nat)
    (h₁ : IterOK iter₁) (h₂ : IterOK iter₂) :
    SameUpToOrder (GenerateMainNodeList cfg v iter₁ fuel₁ currentNumber)
      (GenerateMainNodeList cfg v iter₂ fuel₁ currentNumber) ∧
    (GenerateMainNodeList cfg v iter₁ fuel₁ currentNumber ≠ .outOfFuel →
      GenerateMainNodeList cfg v iter₂ fuel₂ currentNumber ≠ .outOfFuel →
      SameUpToOrder (GenerateMainNodeList cfg v iter₁ fuel₁ currentNumber)
        (GenerateMainNodeList cfg v iter₂ fuel₂ currentNumber)) := by
  have herr : ∀ e : Err, SameUpToOrder (.returned ({}, some e)) (.returned ({}, some e)) :=
    fun e => ⟨rfl, ⟨List.Perm.refl _, List.Perm.refl _, List.Perm.refl _, List.Perm.refl _⟩,
      rfl⟩
  constructor
  · rcases GenerateMainNodeList_cases cfg v fuel₁ currentNumber with h | h | ⟨e, h⟩ | ⟨b, h⟩
    · rw [h iter₁, h iter₂]; trivial
    · rw [h iter₁, h iter₂]; trivial
    · rw [h iter₁, h iter₂]; exact herr e
    · rw [h iter₁, h iter₂]
      exact sameUpToOrder_emitLists cfg iter₁ iter₂ h₁ h₂
        (keysNodup_mergedMap cfg v currentNumber b) (keyIsID_mergedMap cfg v currentNumber b)
  · intro hf₁ hf₂
    rcases GenerateMainNodeList_cases_fuel cfg v currentNumber with h | ⟨e, h⟩ | ⟨b, h⟩
    · rw [h fuel₁ iter₁, h fuel₂ iter₂]; trivial
    · rw [h fuel₁ iter₁, h fuel₂ iter₂]; exact herr e
    · rcases h fuel₁ iter₁ with ha | ha
      · exact absurd ha hf₁
      · rcases h fuel₂ iter₂ with hb | hb
        · exact absurd hb hf₂
        · rw [ha, hb]
          exact sameUpToOrder_emitLists cfg iter₁ iter₂ h₁ h₂
            (keysNodup_mergedMap cfg v currentNumber b)
            (keyIsID_mergedMap cfg v currentNumber b)

/-- Instance on the demo chain at height 6, visited in stored order and in reverse order. -/
theorem GenerateMainNodeList_deterministic_up_to_order_witness :
    IterOK id ∧ IterOK List.reverse ∧
    SameUpToOrder (.returned (demoRoster6, none)) (.returned (demoRoster6rev, none)) :=
  ⟨iterOK_id, iterOK_reverse,
    (show GenerateMainNodeList demoParams demoVerifier id 10 6 = .returned (demoRoster6, none)
        from by decide) ▸
    (show GenerateMainNodeList demoParams demoVerifier List.reverse 10 6 =
        .returned (demoRoster6rev, none) from by decide) ▸
    (GenerateMainNodeList_deterministic_up_to_order demoParams demoVerifier id List.reverse 10 12
      6 iterOK_id iterOK_reverse).1⟩

/-! ## The scanner at the largest end height -/

/-- C8, evaluation at the failing input: on the range from 0 to the largest uint64 the scanner
never returns, whatever the chain holds; every amount of fuel runs out. -/
theorem scanner_never_returns_at_max (v : Verifier) (fuel : Nat) :
    GetElectionAndExitNodeInfo v fuel 0 (2 ^ 64 - 1) = .outOfFuel := by
  unfold GetElectionAndExitNodeInfo
  rw [if_neg (by omega), scanLoop_none_of_max v (2 ^ 64 - 1) (le_refl _) fuel 0 _ (by norm_num)]

/-! ## The order of the emitted lists -/

theorem bucketOf_eq_iff (cfg : Params) (hd : cfg.DistinctTypes) (t : Nat) :
    (bucketOf cfg t = .offline ↔ t = cfg.ElectExit) ∧
    (bucketOf cfg t = .miner ↔ t = cfg.ElectMiner) ∧
    (bucketOf cfg t = .committee ↔ t = cfg.ElectCommittee) ∧
    (bucketOf cfg t = .both ↔ t = cfg.ElectBoth) := by
  obtain ⟨d₁, d₂, d₃, d₄, d₅, d₆⟩ := hd
  unfold bucketOf
  split_ifs with h₁ h₂ h₃ h₄
  · subst h₁; simp [d₁, d₂, d₃]
  · subst h₂; simp [h₁, d₄, d₅]
  · subst h₃; simp [h₁, h₂, d₆]
  · subst h₄; simp [h₁, h₂, h₃]
  · simp [h₁, h₂, h₃, h₄]

theorem pick_eq_filter (cfg : Params) (bk : Bucket) (t : Nat) (l : NodeMap)
    (h : ∀ t', bucketOf cfg t' = bk ↔ t' = t) :
    pick cfg bk l = (l.filter (fun e => e.2.ElectType = t)).map (fun e => toNodeInfo e.2) := by
  unfold pick
  congr 1
  apply List.filter_congr
  intro e _
  exact decide_eq_decide.2 (h e.2.ElectType)

/-- C10, counterexample: at height 6 of the demo chain two admissible visiting orders of the
merged map give two successful calls whose committee lists hold the same records in different
orders. -/
theorem emitted_order_depends_on_visiting_order :
    IterOK id ∧ IterOK List.reverse ∧
    GenerateMainNodeList demoParams demoVerifier id 10 6 = .returned (demoRoster6, none) ∧
    GenerateMainNodeList demoParams demoVerifier List.reverse 10 6 =
      .returned (demoRoster6rev, none) ∧
    demoRoster6.CommitteeList ≠ demoRoster6rev.CommitteeList :=
  ⟨iterOK_id, iterOK_reverse, by decide, by decide, by decide⟩

/-- A second run whose iteration visits the merged map in the same sequence as a successful
run returns the same roster, list by list and element by element. -/
theorem GenerateMainNodeList_same_visit (cfg : Params) (v : Verifier)
    (iter iter' : NodeMap → NodeMap) (fuel currentNumber : Nat) (roster : NodeList)
    (b : Baseline)
    (hret : GenerateMainNodeList cfg v iter fuel currentNumber = .returned (roster, none))
    (hb : selectBaseline cfg v (lastBroadcastBlkNumber cfg currentNumber) = .returned (some b))
    (hsame : iter' (mergedMap cfg v currentNumber b) = iter (mergedMap cfg v currentNumber b)) :
    GenerateMainNodeList cfg v iter' fuel currentNumber = .returned (roster, none) := by
  rcases GenerateMainNodeList_cases cfg v fuel currentNumber with h | h | ⟨e, h⟩ | ⟨b', h⟩
  · rw [h iter] at hret; cases hret
  · rw [h iter] at hret; cases hret
  · rw [h iter] at hret; cases hret
  · have h' := h iter'
    have hr' := roster_eq_emitLists cfg v iter' fuel currentNumber _ b h' hb
    have hr := roster_eq_emitLists cfg v iter fuel currentNumber roster b hret hb
    rw [h', hr', hr]
    unfold emitLists
    rw [hsame]

/-- C10, amended: in a successful call each of the four emitted lists holds the records of the
merged-map entries of its election type in the order in which the iteration over the map
visits them; no sorting takes place, so the emitted order is the visiting order, and a second
run whose iteration visits the merged map in the same sequence emits identical lists. -/
theorem emitted_order_is_visiting_order (cfg : Params) (v : Verifier) (iter : NodeMap → NodeMap)
    (fuel currentNumber : Nat) (roster : NodeList) (b : Baseline) (hd : cfg.DistinctTypes)
    (hret : GenerateMainNodeList cfg v iter fuel currentNumber = .returned (roster, none))
    (hb : selectBaseline cfg v (lastBroadcastBlkNumber cfg currentNumber) = .returned (some b)) :
    roster.MinerList =
      ((iter (mergedMap cfg v currentNumber b)).filter
        (fun e => e.2.ElectType = cfg.ElectMiner)).map (fun e => toNodeInfo e.2) ∧
    roster.CommitteeList =
      ((iter (mergedMap cfg v currentNumber b)).filter
        (fun e => e.2.ElectType = cfg.ElectCommittee)).map (fun e => toNodeInfo e.2) ∧
    roster.Both =
      ((iter (mergedMap cfg v currentNumber b)).filter
        (fun e => e.2.ElectType = cfg.ElectBoth)).map (fun e => toNodeInfo e.2) ∧
    roster.OfflineList =
      ((iter (mergedMap cfg v currentNumber b)).filter
        (fun e => e.2.ElectType = cfg.ElectExit)).map (fun e => toNodeInfo e.2) ∧
    (∀ iter' : NodeMap → NodeMap,
      iter' (mergedMap cfg v currentNumber b) = iter (mergedMap cfg v currentNumber b) →
      GenerateMainNodeList cfg v iter' fuel currentNumber = .returned (roster, none)) := by
  refine ⟨?_, ?_, ?_, ?_, fun iter' hsame =>
    GenerateMainNodeList_same_visit cfg v iter iter' fuel currentNumber roster b hret hb hsame⟩
  all_goals
    have hr := roster_eq_emitLists cfg v iter fuel currentNumber roster b hret hb
    rw [emitLists_eq] at hr
    subst hr
  · exact pick_eq_filter cfg .miner _ _ (fun t => (bucketOf_eq_iff cfg hd t).2.1)
  · exact pick_eq_filter cfg .committee _ _ (fun t => (bucketOf_eq_iff cfg hd t).2.2.1)
  · exact pick_eq_filter cfg .both _ _ (fun t => (bucketOf_eq_iff cfg hd t).2.2.2)
  · exact pick_eq_filter cfg .offline _ _ (fun t => (bucketOf_eq_iff cfg hd t).1)

/-- Instance on the demo chain at height 6, visited in reverse order. -/
theorem emitted_order_is_visiting_order_witness :
    demoParams.DistinctTypes ∧
    GenerateMainNodeList demoParams demoVerifier List.reverse 10 6 =
      .returned (demoRoster6rev, none) ∧
    selectBaseline demoParams demoVerifier (lastBroadcastBlkNumber demoParams 6) =
      .returned (some demoBaseline4) ∧
    demoRoster6rev.CommitteeList =
      ((List.reverse (mergedMap demoParams demoVerifier 6 demoBaseline4)).filter
        (fun e => e.2.ElectType = demoParams.ElectCommittee)).map (fun e => toNodeInfo e.2) :=
  ⟨by decide, by decide, by decide,
    (emitted_order_is_visiting_order demoParams demoVerifier List.reverse 10 6 demoRoster6rev
      demoBaseline4 (by decide) (by decide) (by decide)).2.1⟩

/-! ## The offline list of the baseline block -/

theorem scanTx_withOfflineList (v : Verifier) (h : Nat) (l : List NodeInfo) :
    scanTx (withOfflineList v h l) = scanTx v := by
  funext m tx
  rfl

theorem scanBlock_withOfflineList (v : Verifier) (h : Nat) (l : List NodeInfo) (st : ScanState)
    (pos : Nat) : scanBlock (withOfflineList v h l) st pos = scanBlock v st pos := by
  unfold scanBlock
  rw [scanTx_withOfflineList]
  show (match (if pos = h then (v.chain.GetBlockByNumber pos).map _
      else v.chain.GetBlockByNumber pos) with
    | none => _
    | some block => _) = _
  by_cases hp : pos = h
  · rw [if_pos hp]
    cases v.chain.GetBlockByNumber pos <;> rfl
  · rw [if_neg hp]

theorem scanLoop_withOfflineList (v : Verifier) (h : Nat) (l : List NodeInfo) (blkNumEnd : Nat) :
    ∀ (fuel pos : Nat) (st : ScanState),
      scanLoop (withOfflineList v h l) blkNumEnd fuel pos st = scanLoop v blkNumEnd fuel pos st := by
  intro fuel
  induction fuel with
  | zero => intro pos st; rfl
  | succ f ih =>
    intro pos st
    rw [scanLoop, scanLoop, scanBlock_withOfflineList, ih]

theorem GetElectionAndExitNodeInfo_withOfflineList (v : Verifier) (h : Nat) (l : List NodeInfo)
    (fuel blkNumStart blkNumEnd : Nat) :
    GetElectionAndExitNodeInfo (withOfflineList v h l) fuel blkNumStart blkNumEnd =
      GetElectionAndExitNodeInfo v fuel blkNumStart blkNumEnd := by
  unfold GetElectionAndExitNodeInfo
  rw [scanLoop_withOfflineList]

theorem selectBaseline_withOfflineList (cfg : Params) (v : Verifier) (h : Nat)
    (l : List NodeInfo) (n : Nat) :
    selectBaseline cfg (withOfflineList v h l) n = selectBaseline cfg v n := by
  unfold selectBaseline
  by_cases hn : n = 0
  · rw [if_pos hn, if_pos hn]
  · rw [if_neg hn, if_neg hn]
    show (match (if n = h then (v.chain.GetBlockByNumber n).map _
        else v.chain.GetBlockByNumber n) with
      | none => _
      | some lastBroadcastBlk => _) = _
    by_cases hp : n = h
    · rw [if_pos hp]
      cases v.chain.GetBlockByNumber n <;> rfl
    · rw [if_neg hp]

/-- The builder never reads the offline list of a block header. -/
theorem GenerateMainNodeList_withOfflineList (cfg : Params) (v : Verifier) (h : Nat)
    (l : List NodeInfo) (iter : NodeMap → NodeMap) (fuel currentNumber : Nat) :
    GenerateMainNodeList cfg (withOfflineList v h l) iter fuel currentNumber =
      GenerateMainNodeList cfg v iter fuel currentNumber := by
  unfold GenerateMainNodeList
  simp only [selectBaseline_withOfflineList, GetElectionAndExitNodeInfo_withOfflineList]

/-- Every record of the roster of a successful call comes from the value that the merged map
holds under the `ID` of the record. -/
theorem mapGet_of_mem_roster (cfg : Params) (v : Verifier) (iter : NodeMap → NodeMap)
    (fuel currentNumber : Nat) (roster : NodeList) (b : Baseline) (hiter : IterOK iter)
    (hret : GenerateMainNodeList cfg v iter fuel currentNumber = .returned (roster, none))
    (hb : selectBaseline cfg v (lastBroadcastBlkNumber cfg currentNumber) = .returned (some b))
    (n : NodeInfo) (hn : n ∈ roster.all) :
    ∃ p, mapGet (mergedMap cfg v currentNumber b) n.ID = some p ∧ n = toNodeInfo p := by
  have hr := roster_eq_emitLists cfg v iter fuel currentNumber roster b hret hb
  rw [emitLists_eq] at hr
  subst hr
  have aux : ∀ bk, n ∈ pick cfg bk (iter (mergedMap cfg v currentNumber b)) →
      ∃ p, mapGet (mergedMap cfg v currentNumber b) n.ID = some p ∧ n = toNodeInfo p := by
    intro bk h
    obtain ⟨e, he, -, hn'⟩ := (mem_pick cfg bk _ n).1 h
    have hem : e ∈ mergedMap cfg v currentNumber b := (hiter _).mem_iff.1 he
    have hk : e.1 = n.ID := by
      rw [keyIsID_mergedMap cfg v currentNumber b e hem, ← hn']; rfl
    refine ⟨e.2, ?_, hn'.symm⟩
    rw [← hk]
    exact (mem_iff_mapGet (keysNodup_mergedMap cfg v currentNumber b) e.1 e.2).1 hem
  simp only [NodeList.all, List.mem_append] at hn
  rcases hn with ((h | h) | h) | h
  · exact aux _ h
  · exact aux _ h
  · exact aux _ h
  · exact aux _ h

theorem find?_map_eq_none {l : List NodeInfo} {X : String} (t : Nat)
    (h : ∀ n ∈ l, n.ID ≠ X) :
    (l.find? (fun n => n.ID = X)).map (fun n => newPayLoadInfo n t) = none := by
  have : l.find? (fun n => n.ID = X) = none :=
    List.find?_eq_none.2 (fun n hn => by simpa using h n hn)
  rw [this]; rfl

/-- C11: exits are not carried forward.  The roster of a successful call is returned unchanged
when the offline list in the header of the block at lastBroadcastBlkNumber is replaced by any
other list; indeed the whole outcome of GenerateMainNodeList is unchanged when the offline list
of any block header is replaced.  A node ID that occurs in none of the three baseline lists
that are read (so at most in the offline list) and in no scanned record of the window occurs
in none of the four output lists. -/
theorem offline_list_not_carried_forward (cfg : Params) (v : Verifier)
    (iter : NodeMap → NodeMap) (fuel currentNumber : Nat) (roster : NodeList) (b : Baseline)
    (hiter : IterOK iter)
    (hret : GenerateMainNodeList cfg v iter fuel currentNumber = .returned (roster, none))
    (hb : selectBaseline cfg v (lastBroadcastBlkNumber cfg currentNumber) = .returned (some b)) :
    (∀ l, GenerateMainNodeList cfg
        (withOfflineList v (lastBroadcastBlkNumber cfg currentNumber) l) iter fuel currentNumber =
      .returned (roster, none)) ∧
    (∀ h l iter' fuel' currentNumber',
      GenerateMainNodeList cfg (withOfflineList v h l) iter' fuel' currentNumber' =
        GenerateMainNodeList cfg v iter' fuel' currentNumber') ∧
    (∀ X, (∀ n ∈ b.minerList ++ b.committeeList ++ b.bothList, n.ID ≠ X) →
      lastRecord v (startPos cfg currentNumber) currentNumber X = none →
      ∀ n ∈ roster.all, n.ID ≠ X) := by
  refine ⟨fun l => ?_, fun h l iter' fuel' currentNumber' =>
    GenerateMainNodeList_withOfflineList cfg v h l iter' fuel' currentNumber', ?_⟩
  · rw [GenerateMainNodeList_withOfflineList]; exact hret
  · intro X hbase hlast n hn hX
    obtain ⟨p, hp, -⟩ := mapGet_of_mem_roster cfg v iter fuel currentNumber roster b hiter
      hret hb n hn
    rw [hX] at hp
    have hnone : mapGet (mergedMap cfg v currentNumber b) X = none := by
      unfold mergedMap
      rw [mapGet_mergeBaseline, mapGet_scan, hlast,
        find?_map_eq_none _ (fun n hn => hbase n (by simp [hn])),
        find?_map_eq_none _ (fun n hn => hbase n (by simp [hn])),
        find?_map_eq_none _ (fun n hn => hbase n (by simp [hn]))]
      rfl
    rw [hnone] at hp
    cases hp

/-- Instance on the quiet demo chain at height 6: the node `z` of the offline list of the
baseline block is in no output list, and another offline list gives the same roster. -/
theorem offline_list_not_carried_forward_witness :
    IterOK id ∧
    GenerateMainNodeList demoParams demoQuietVerifier id 10 6 =
      .returned (demoQuietRoster, none) ∧
    demoQuietVerifier.chain.GetBlockByNumber 4 = some demoQuietBlock ∧
    demoNode "z" ∈ demoQuietBlock.header.OfflineList ∧
    GenerateMainNodeList demoParams (withOfflineList demoQuietVerifier 4 []) id 10 6 =
      .returned (demoQuietRoster, none) ∧
    ∀ n ∈ demoQuietRoster.all, n.ID ≠ "z" :=
  ⟨iterOK_id, by decide, rfl, by decide,
    (offline_list_not_carried_forward demoParams demoQuietVerifier id 10 6 demoQuietRoster
      { minerList := demoQuietBlock.header.MinerList
        committeeList := demoQuietBlock.header.CommitteeList
        bothList := demoQuietBlock.header.Both } iterOK_id (by decide) (by decide)).1 [],
    (offline_list_not_carried_forward demoParams demoQuietVerifier id 10 6 demoQuietRoster
      { minerList := demoQuietBlock.header.MinerList
        committeeList := demoQuietBlock.header.CommitteeList
        bothList := demoQuietBlock.header.Both } iterOK_id (by decide) (by decide)).2.2 "z"
      (by decide) (by decide)⟩

/-! ## Uniqueness of the IDs of a roster -/

theorem nodup_all_picks (cfg : Params) {l : NodeMap} (hn : KeysNodup l) (hid : KeyIsID l) :
    ((pick cfg .miner l ++ pick cfg .committee l ++ pick cfg .both l ++
      pick cfg .offline l).map NodeInfo.ID).Nodup := by
  rw [List.nodup_iff_count_le_one]
  intro X
  by_cases h : ∃ p, (X, p) ∈ l
  · obtain ⟨p, hp⟩ := h
    rw [count_all_picks cfg hn hid X p hp]
    split <;> omega
  · have hz : ∀ bk, ((pick cfg bk l).map NodeInfo.ID).count X = 0 := fun bk =>
      count_pick_ids_zero cfg bk hid X (fun p hp => absurd ⟨p, hp⟩ h)
    simp only [List.map_append, List.count_append, hz]
    omega

/-- C12: ID uniqueness in the output.  In a successful call no node ID occurs twice in
MinerList ++ CommitteeList ++ Both ++ OfflineList, whatever repetitions the baseline lists
contain among themselves or with the scan result.  The invariant behind it: every key of the
map returned by the scanner is the ID of its value, and mergeNodeInfo keeps that property and
the distinctness of the keys. -/
theorem roster_ids_unique (cfg : Params) (v : Verifier) (iter : NodeMap → NodeMap)
    (fuel currentNumber : Nat) (roster : NodeList) (hiter : IterOK iter)
    (hret : GenerateMainNodeList cfg v iter fuel currentNumber = .returned (roster, none)) :
    ((roster.MinerList ++ roster.CommitteeList ++ roster.Both ++ roster.OfflineList).map
      NodeInfo.ID).Nodup ∧
    (∀ r m, GetElectionAndExitNodeInfo v fuel (startPos cfg currentNumber) currentNumber =
        .returned r → r.infoMap = some m → KeyIsID m ∧ KeysNodup m) ∧
    (∀ (m : NodeMap) (l : List NodeInfo) (t : Nat), KeyIsID m → KeysNodup m →
      KeyIsID (mergeNodeInfo m l t) ∧ KeysNodup (mergeNodeInfo m l t)) := by
  obtain ⟨b, -, -, hb, hs, hr⟩ := GenerateMainNodeList_success cfg v iter fuel currentNumber
    roster hret
  refine ⟨?_, ?_, ?_⟩
  · rw [hr, emitLists_eq]
    exact nodup_all_picks cfg
      (keysNodup_of_perm (hiter _) (keysNodup_mergedMap cfg v currentNumber b))
      (keyIsID_of_perm (hiter _) (keyIsID_mergedMap cfg v currentNumber b))
  · intro r m hr' hm
    rw [hs] at hr'
    injection hr' with hr'
    subst hr'
    injection hm with hm
    subst hm
    exact ⟨keyIsID_storeAll keyIsID_nil _, keysNodup_storeAll keysNodup_nil _⟩
  · intro m l t h₁ h₂
    exact ⟨keyIsID_mergeNodeInfo h₁ l t, keysNodup_mergeNodeInfo h₂ l t⟩

/-- Instance on the demo chain with repeated baseline IDs, at height 6. -/
theorem roster_ids_unique_witness :
    IterOK id ∧
    GenerateMainNodeList demoParams demoDupVerifier id 10 6 =
      .returned (demoDupRoster, none) ∧
    ((demoDupRoster.MinerList ++ demoDupRoster.CommitteeList ++ demoDupRoster.Both ++
      demoDupRoster.OfflineList).map NodeInfo.ID).Nodup :=
  ⟨iterOK_id, by decide,
    (roster_ids_unique demoParams demoDupVerifier id 10 6 demoDupRoster iterOK_id
      (by decide)).1⟩

/-! ## Ties between the baseline lists -/

theorem toNodeInfo_newPayLoadInfo (n : NodeInfo) (t : Nat) :
    toNodeInfo (newPayLoadInfo n t) = n := by
  cases n; rfl

theorem newPayLoadInfo_electType (n : NodeInfo) (t : Nat) :
    (newPayLoadInfo n t).ElectType = t := rfl

/-- What a successful call does with an entry of the merged map whose type is one of the four
constants: the record is in the list of the bucket and its `ID` occurs once in the roster. -/
theorem roster_entry_count (cfg : Params) (v : Verifier) (iter : NodeMap → NodeMap)
    (fuel currentNumber : Nat) (roster : NodeList) (b : Baseline) (hiter : IterOK iter)
    (hret : GenerateMainNodeList cfg v iter fuel currentNumber = .returned (roster, none))
    (hb : selectBaseline cfg v (lastBroadcastBlkNumber cfg currentNumber) = .returned (some b))
    (X : String) (p : ElectionTxPayLoadInfo)
    (hp : mapGet (mergedMap cfg v currentNumber b) X = some p)
    (hne : bucketOf cfg p.ElectType ≠ .dropped) :
    toNodeInfo p ∈ roster.bucket (bucketOf cfg p.ElectType) ∧
    (roster.all.map NodeInfo.ID).count X = 1 := by
  refine ⟨(roster_entry cfg v iter fuel currentNumber roster b hiter hret hb X p hp).1 hne, ?_⟩
  have hr := roster_eq_emitLists cfg v iter fuel currentNumber roster b hret hb
  rw [emitLists_eq] at hr
  subst hr
  have hmem := mem_iter_of_mapGet hiter (keysNodup_mergedMap cfg v currentNumber b) X p hp
  have hc := count_all_picks cfg
    (keysNodup_of_perm (hiter _) (keysNodup_mergedMap cfg v currentNumber b))
    (keyIsID_of_perm (hiter _) (keyIsID_mergedMap cfg v currentNumber b)) X p hmem
  rw [if_neg hne] at hc
  exact hc

/-- C13: baseline tie order.  mergeNodeInfo never changes the value of an ID that is already a
key, and gives an ID that is no key the payload of its first occurrence in the list; the
baseline lists are merged in the order Miner, Committee, Both.  Hence, in a successful call, an
ID X without a scanned record in the window that occurs in the baseline is emitted exactly
once: in MinerList when the baseline miner list contains it, else in CommitteeList when the
baseline committee list contains it, else in Both, each time with the fields of its first
occurrence in that list. -/
theorem baseline_tie_order (cfg : Params) (v : Verifier) (iter : NodeMap → NodeMap)
    (fuel currentNumber : Nat) (roster : NodeList) (b : Baseline) (X : String)
    (hd : cfg.DistinctTypes) (hiter : IterOK iter)
    (hret : GenerateMainNodeList cfg v iter fuel currentNumber = .returned (roster, none))
    (hb : selectBaseline cfg v (lastBroadcastBlkNumber cfg currentNumber) = .returned (some b))
    (hnoscan : lastRecord v (startPos cfg currentNumber) currentNumber X = none) :
    (∀ (m : NodeMap) (l : List NodeInfo) (t : Nat) (Y : String) (p : ElectionTxPayLoadInfo),
      mapGet m Y = some p → mapGet (mergeNodeInfo m l t) Y = some p) ∧
    (∀ (m : NodeMap) (l : List NodeInfo) (t : Nat) (Y : String), mapGet m Y = none →
      mapGet (mergeNodeInfo m l t) Y =
        (l.find? (fun n => n.ID = Y)).map (fun n => newPayLoadInfo n t)) ∧
    (∀ n, b.minerList.find? (fun n => n.ID = X) = some n →
      n ∈ roster.MinerList ∧ (roster.all.map NodeInfo.ID).count X = 1) ∧
    (∀ n, (∀ n' ∈ b.minerList, n'.ID ≠ X) →
      b.committeeList.find? (fun n => n.ID = X) = some n →
      n ∈ roster.CommitteeList ∧ (roster.all.map NodeInfo.ID).count X = 1) ∧
    (∀ n, (∀ n' ∈ b.minerList, n'.ID ≠ X) → (∀ n' ∈ b.committeeList, n'.ID ≠ X) →
      b.bothList.find? (fun n => n.ID = X) = some n →
      n ∈ roster.Both ∧ (roster.all.map NodeInfo.ID).count X = 1) := by
  have hget : ∀ p,
      ((((none : Option ElectionTxPayLoadInfo).or
        ((b.minerList.find? (fun n => n.ID = X)).map
          (fun n => newPayLoadInfo n cfg.ElectMiner))).or
        ((b.committeeList.find? (fun n => n.ID = X)).map
          (fun n => newPayLoadInfo n cfg.ElectCommittee))).or
        ((b.bothList.find? (fun n => n.ID = X)).map
          (fun n => newPayLoadInfo n cfg.ElectBoth))) = some p →
      mapGet (mergedMap cfg v currentNumber b) X = some p := by
    intro p hp
    unfold mergedMap
    rw [mapGet_mergeBaseline, mapGet_scan, hnoscan]
    exact hp
  have place : ∀ (n : NodeInfo) (t : Nat) (bk : Bucket), bucketOf cfg t = bk → bk ≠ .dropped →
      mapGet (mergedMap cfg v currentNumber b) X = some (newPayLoadInfo n t) →
      n ∈ roster.bucket bk ∧ (roster.all.map NodeInfo.ID).count X = 1 := by
    intro n t bk hbk hne hp
    have := roster_entry_count cfg v iter fuel currentNumber roster b hiter hret hb X
      (newPayLoadInfo n t) hp (by rw [newPayLoadInfo_electType, hbk]; exact hne)
    rw [newPayLoadInfo_electType, hbk, toNodeInfo_newPayLoadInfo] at this
    exact this
  refine ⟨?_, ?_, ?_, ?_, ?_⟩
  · intro m l t Y p hY
    rw [mapGet_mergeNodeInfo, hY]; rfl
  · intro m l t Y hY
    rw [mapGet_mergeNodeInfo, hY]; rfl
  · intro n hn
    exact place n cfg.ElectMiner .miner (bucketOf_miner cfg hd) (by decide)
      (hget _ (by rw [hn]; rfl))
  · intro n hm hn
    exact place n cfg.ElectCommittee .committee (bucketOf_committee cfg hd) (by decide)
      (hget _ (by rw [find?_map_eq_none _ hm, hn]; rfl))
  · intro n hm hc hn
    exact place n cfg.ElectBoth .both (bucketOf_both cfg hd) (by decide)
      (hget _ (by rw [find?_map_eq_none _ hm, find?_map_eq_none _ hc, hn]; rfl))

/-- Instance on the demo chain with repeated baseline IDs, at height 6: `a` is emitted as a
miner with the fields of its first occurrence, `c` as a committee member. -/
theorem baseline_tie_order_witness :
    demoParams.DistinctTypes ∧ IterOK id ∧
    GenerateMainNodeList demoParams demoDupVerifier id 10 6 =
      .returned (demoDupRoster, none) ∧
    selectBaseline demoParams demoDupVerifier (lastBroadcastBlkNumber demoParams 6) =
      .returned (some demoDupBaseline) ∧
    lastRecord demoDupVerifier (startPos demoParams 6) 6 "a" = none ∧
    demoNodeW "a" 50 ∈ demoDupRoster.MinerList ∧
    (demoDupRoster.all.map NodeInfo.ID).count "a" = 1 :=
  ⟨by decide, iterOK_id, by decide, by decide, by decide,
    ((baseline_tie_order demoParams demoDupVerifier id 10 6 demoDupRoster demoDupBaseline "a"
      (by decide) iterOK_id (by decide) (by decide) (by decide)).2.2.1 (demoNodeW "a" 50)
      (by decide)).1,
    ((baseline_tie_order demoParams demoDupVerifier id 10 6 demoDupRoster demoDupBaseline "a"
      (by decide) iterOK_id (by decide) (by decide) (by decide)).2.2.1 (demoNodeW "a" 50)
      (by decide)).2⟩

/-! ## Which IDs the scanner stores -/

theorem scannedRecord_eq_some_iff (v : Verifier) (otx : Option Transaction)
    (r : ElectionTxPayLoadInfo) :
    scannedRecord v otx = some r ↔
      ∃ tx p a, otx = some tx ∧ tx.ParseElectionTxPayLoad = some p ∧
        tx.Sender v.chain.Config v.chain.CurrentBlockNumber = some a ∧
        r = { p with Account := a } := by
  unfold scannedRecord
  cases otx with
  | none => simp
  | some tx =>
    dsimp only
    cases hp : tx.ParseElectionTxPayLoad with
    | none => simp [hp]
    | some p =>
      dsimp only
      cases ha : tx.Sender v.chain.Config v.chain.CurrentBlockNumber with
      | none => simp [hp, ha]
      | some a =>
        simp only [Option.some.injEq]
        constructor
        · intro h; exact ⟨tx, p, a, rfl, hp, ha, h.symm⟩
        · rintro ⟨tx', p', a', h₁, h₂, h₃, h₄⟩
          cases h₁
          rw [hp] at h₂; cases h₂
          rw [ha] at h₃; cases h₃
          exact h₄.symm

theorem mem_windowHeights (blkNumStart blkNumEnd h : Nat) :
    h ∈ windowHeights blkNumStart blkNumEnd ↔ blkNumStart ≤ h ∧ h ≤ blkNumEnd := by
  unfold windowHeights
  rw [List.mem_range'_1]
  omega

theorem mem_blockTxs (v : Verifier) (h : Nat) (otx : Option Transaction) :
    otx ∈ blockTxs v h ↔
      ∃ blk, v.chain.GetBlockByNumber h = some blk ∧ otx ∈ blk.Transactions := by
  unfold blockTxs
  cases v.chain.GetBlockByNumber h with
  | none => simp
  | some blk => simp

theorem mem_windowRecords (v : Verifier) (blkNumStart blkNumEnd : Nat)
    (r : ElectionTxPayLoadInfo) :
    r ∈ windowRecords v blkNumStart blkNumEnd ↔
      ∃ h, blkNumStart ≤ h ∧ h ≤ blkNumEnd ∧ ∃ otx ∈ blockTxs v h, scannedRecord v otx = some r := by
  unfold windowRecords
  simp only [List.mem_filterMap, List.mem_flatMap, mem_windowHeights]
  constructor
  · rintro ⟨otx, ⟨h, ⟨h₁, h₂⟩, h₃⟩, h₄⟩; exact ⟨h, h₁, h₂, otx, h₃, h₄⟩
  · rintro ⟨h, h₁, h₂, otx, h₃, h₄⟩; exact ⟨otx, ⟨h, ⟨h₁, h₂⟩, h₃⟩, h₄⟩

theorem lastRecord_eq_some_mem {v : Verifier} {blkNumStart blkNumEnd : Nat} {X : String}
    {r : ElectionTxPayLoadInfo} (h : lastRecord v blkNumStart blkNumEnd X = some r) :
    r ∈ windowRecords v blkNumStart blkNumEnd ∧ r.ID = X := by
  unfold lastRecord at h
  have := List.mem_of_getLast?_eq_some h
  rw [List.mem_filter] at this
  exact ⟨this.1, by simpa using this.2⟩

theorem lastRecord_isSome_iff (v : Verifier) (blkNumStart blkNumEnd : Nat) (X : String) :
    (∃ p, lastRecord v blkNumStart blkNumEnd X = some p) ↔
      ∃ r ∈ windowRecords v blkNumStart blkNumEnd, r.ID = X := by
  constructor
  · rintro ⟨p, hp⟩
    exact ⟨p, (lastRecord_eq_some_mem hp).1, (lastRecord_eq_some_mem hp).2⟩
  · rintro ⟨r, hr, hX⟩
    unfold lastRecord
    have hmem : r ∈ (windowRecords v blkNumStart blkNumEnd).filter (fun r => r.ID = X) :=
      List.mem_filter.2 ⟨hr, by simpa using hX⟩
    cases hl : ((windowRecords v blkNumStart blkNumEnd).filter
        (fun r => decide (r.ID = X))).getLast? with
    | none =>
      rw [List.getLast?_eq_none_iff] at hl
      rw [hl] at hmem
      cases hmem
    | some p => exact ⟨p, rfl⟩

/-- C14: scanner membership.  For a range blkNumStart <= blkNumEnd of uint64 heights, whenever
the scanner returns, an ID X is a key of the returned map if and only if some height h of the
range has a present block that contains a non-nil transaction which decodes to an election
payload with the ID X and whose signer recovery succeeds; absent blocks, nil transactions,
transactions without a payload and failed recoveries add nothing and stop nothing.  The
scanner does return when the end is below the largest uint64 and the fuel suffices. -/
theorem scanner_membership (v : Verifier) (fuel blkNumStart blkNumEnd : Nat) (X : String)
    (hle : blkNumStart ≤ blkNumEnd) (hend : blkNumEnd < 2 ^ 64) :
    (∀ r, GetElectionAndExitNodeInfo v fuel blkNumStart blkNumEnd = .returned r →
      ∃ m, r.infoMap = some m ∧
        ((∃ p, mapGet m X = some p) ↔
          ∃ h, blkNumStart ≤ h ∧ h ≤ blkNumEnd ∧
            ∃ blk, v.chain.GetBlockByNumber h = some blk ∧
              ∃ tx, some tx ∈ blk.Transactions ∧
                ∃ p, tx.ParseElectionTxPayLoad = some p ∧ p.ID = X ∧
                  ∃ a, tx.Sender v.chain.Config v.chain.CurrentBlockNumber = some a)) ∧
    (blkNumEnd + 1 < 2 ^ 64 → blkNumEnd + 1 - blkNumStart < fuel →
      ∃ r, GetElectionAndExitNodeInfo v fuel blkNumStart blkNumEnd = .returned r) := by
  refine ⟨?_, fun h₁ h₂ =>
    ⟨_, GetElectionAndExitNodeInfo_eq v fuel blkNumStart blkNumEnd hle h₁ h₂⟩⟩
  intro r hr
  have := GetElectionAndExitNodeInfo_returned v fuel blkNumStart blkNumEnd r hle (by omega) hr
  subst this
  refine ⟨_, rfl, ?_⟩
  rw [mapGet_scan, lastRecord_isSome_iff]
  constructor
  · rintro ⟨r, hr, hX⟩
    obtain ⟨h, h₁, h₂, otx, hotx, hrec⟩ := (mem_windowRecords v _ _ r).1 hr
    obtain ⟨tx, p, a, rfl, hp, ha, rfl⟩ := (scannedRecord_eq_some_iff v otx r).1 hrec
    obtain ⟨blk, hblk, htx⟩ := (mem_blockTxs v h _).1 hotx
    exact ⟨h, h₁, h₂, blk, hblk, tx, htx, p, hp, hX, a, ha⟩
  · rintro ⟨h, h₁, h₂, blk, hblk, tx, htx, p, hp, hX, a, ha⟩
    refine ⟨{ p with Account := a }, ?_, hX⟩
    exact (mem_windowRecords v _ _ _).2 ⟨h, h₁, h₂, some tx,
      (mem_blockTxs v h _).2 ⟨blk, hblk, htx⟩,
      (scannedRecord_eq_some_iff v _ _).2 ⟨tx, p, a, rfl, hp, ha, rfl⟩⟩

/-- Instance on the demo chain, window 0 to 2: the scanner returns and `x`, declared at
height 1, is a key of its map. -/
theorem scanner_membership_witness :
    0 ≤ 2 ∧ 2 < 2 ^ 64 ∧
    (∃ r, GetElectionAndExitNodeInfo demoVerifier 10 0 2 = .returned r) ∧
    ∃ r m, GetElectionAndExitNodeInfo demoVerifier 10 0 2 = .returned r ∧
      r.infoMap = some m ∧ mapGet m "x" = some { demoPayload "x" 3 8 with Account := 42 } :=
  ⟨by decide, by decide,
    (scanner_membership demoVerifier 10 0 2 "x" (by decide) (by decide)).2 (by decide)
      (by decide),
    ⟨_, _, rfl, rfl, by decide⟩⟩

/-! ## Termination of the scanner loop -/

/-- When blkNumEnd is the largest uint64, the scanner does not return from any uint64 start
height: every amount of fuel runs out. -/
theorem GetElectionAndExitNodeInfo_max (v : Verifier) (fuel blkNumStart : Nat)
    (hs : blkNumStart < 2 ^ 64) :
    GetElectionAndExitNodeInfo v fuel blkNumStart (2 ^ 64 - 1) = .outOfFuel := by
  unfold GetElectionAndExitNodeInfo
  rw [if_neg (by omega),
    scanLoop_none_of_max v (2 ^ 64 - 1) (le_refl _) fuel blkNumStart _ hs]

/-- C15, evaluation at the failing input: on the one-height range that starts and ends at the
largest uint64 the loop of the scanner does not terminate; after that height the counter wraps
to 0 and the test pos <= blkNumEnd never fails, so every amount of fuel runs out. -/
theorem scanner_loop_never_stops_at_max (v : Verifier) (fuel : Nat) :
    GetElectionAndExitNodeInfo v fuel (2 ^ 64 - 1) (2 ^ 64 - 1) = .outOfFuel :=
  GetElectionAndExitNodeInfo_max v fuel (2 ^ 64 - 1) (by norm_num)

/-- Below the largest uint64 the loop does terminate: with enough fuel the scanner returns
after reading each height of the range exactly once, in increasing order. -/
theorem scanner_reads_window (v : Verifier) (fuel blkNumStart blkNumEnd : Nat)
    (hle : blkNumStart ≤ blkNumEnd) (hend : blkNumEnd + 1 < 2 ^ 64)
    (hfuel : blkNumEnd + 1 - blkNumStart < fuel) :
    ∃ r, GetElectionAndExitNodeInfo v fuel blkNumStart blkNumEnd = .returned r ∧
      r.reads = List.range' blkNumStart (blkNumEnd + 1 - blkNumStart) :=
  ⟨_, GetElectionAndExitNodeInfo_eq v fuel blkNumStart blkNumEnd hle hend hfuel, rfl⟩

/-! ## The signer of a scanned record -/

/-- Whether the loop stops depends on the fuel and the heights only, not on the chain. -/
theorem scanLoop_isSome (v v' : Verifier) (blkNumEnd : Nat) :
    ∀ (fuel pos : Nat) (st st' : ScanState),
      (scanLoop v blkNumEnd fuel pos st).isSome = (scanLoop v' blkNumEnd fuel pos st').isSome := by
  intro fuel
  induction fuel with
  | zero => intro pos st st'; rfl
  | succ f ih =>
    intro pos st st'
    rw [scanLoop, scanLoop]
    by_cases h : pos ≤ blkNumEnd
    · rw [if_pos h, if_pos h]; exact ih _ _ _
    · rw [if_neg h, if_neg h]; rfl

theorem scannedRecord_congr (v v' : Verifier) (hc : v'.chain.Config = v.chain.Config)
    (hn : v'.chain.CurrentBlockNumber = v.chain.CurrentBlockNumber) :
    scannedRecord v' = scannedRecord v := by
  funext otx
  unfold scannedRecord
  rw [hc, hn]

/-- C16: signer height.  For a range blkNumStart <= blkNumEnd of uint64 heights, whenever the
scanner returns, every record of its map comes from a transaction of a present block of the
range: its Account is the address recovered from that transaction with the Config() of the
chain and the number of CurrentBlock(), whatever the height of the block that contains the
transaction, and its other fields are those of the decoded payload.  A chain with the same
Config() and CurrentBlock() whose window holds the same transactions in the same overall order,
distributed differently over the heights, gives the same result. -/
theorem scanner_signer_height (v : Verifier) (fuel blkNumStart blkNumEnd : Nat)
    (hle : blkNumStart ≤ blkNumEnd) (hend : blkNumEnd < 2 ^ 64) :
    (∀ r, GetElectionAndExitNodeInfo v fuel blkNumStart blkNumEnd = .returned r →
      ∃ m, r.infoMap = some m ∧
        ∀ X record, mapGet m X = some record →
          ∃ h, blkNumStart ≤ h ∧ h ≤ blkNumEnd ∧
            ∃ blk, v.chain.GetBlockByNumber h = some blk ∧
              ∃ tx, some tx ∈ blk.Transactions ∧
                ∃ p, tx.ParseElectionTxPayLoad = some p ∧
                  tx.Sender v.chain.Config v.chain.CurrentBlockNumber = some record.Account ∧
                  record = { p with Account := record.Account }) ∧
    (∀ v' : Verifier, v'.chain.Config = v.chain.Config →
      v'.chain.CurrentBlockNumber = v.chain.CurrentBlockNumber →
      (windowHeights blkNumStart blkNumEnd).flatMap (blockTxs v') =
        (windowHeights blkNumStart blkNumEnd).flatMap (blockTxs v) →
      ∀ r, GetElectionAndExitNodeInfo v fuel blkNumStart blkNumEnd = .returned r →
        GetElectionAndExitNodeInfo v' fuel blkNumStart blkNumEnd = .returned r) ∧
    (blkNumEnd + 1 < 2 ^ 64 → blkNumEnd + 1 - blkNumStart < fuel →
      ∃ r, GetElectionAndExitNodeInfo v fuel blkNumStart blkNumEnd = .returned r) := by
  refine ⟨?_, ?_, fun h₁ h₂ =>
    ⟨_, GetElectionAndExitNodeInfo_eq v fuel blkNumStart blkNumEnd hle h₁ h₂⟩⟩
  · intro r hr
    have := GetElectionAndExitNodeInfo_returned v fuel blkNumStart blkNumEnd r hle (by omega) hr
    subst this
    refine ⟨_, rfl, ?_⟩
    intro X record hrec
    rw [mapGet_scan] at hrec
    obtain ⟨hmem, -⟩ := lastRecord_eq_some_mem hrec
    obtain ⟨h, h₁, h₂, otx, hotx, hsr⟩ := (mem_windowRecords v _ _ record).1 hmem
    obtain ⟨tx, p, a, rfl, hp, ha, rfl⟩ := (scannedRecord_eq_some_iff v otx record).1 hsr
    obtain ⟨blk, hblk, htx⟩ := (mem_blockTxs v h _).1 hotx
    exact ⟨h, h₁, h₂, blk, hblk, tx, htx, p, hp, ha, rfl⟩
  · intro v' hc hn htxs r hr
    have hcl := GetElectionAndExitNodeInfo_returned v fuel blkNumStart blkNumEnd r hle
      (by omega) hr
    have hsome : (scanLoop v' blkNumEnd fuel blkNumStart { infoMap := [], reads := [] }).isSome
        = true := by
      rw [scanLoop_isSome v' v blkNumEnd fuel blkNumStart _ { infoMap := [], reads := [] }]
      unfold GetElectionAndExitNodeInfo at hr
      rw [if_neg (by omega)] at hr
      cases hl : scanLoop v blkNumEnd fuel blkNumStart { infoMap := [], reads := [] } with
      | none => rw [hl] at hr; cases hr
      | some st => rfl
    obtain ⟨st', hst'⟩ := Option.isSome_iff_exists.1 hsome
    have hr' : GetElectionAndExitNodeInfo v' fuel blkNumStart blkNumEnd =
        .returned { infoMap := some st'.infoMap, err := none, reads := st'.reads } := by
      unfold GetElectionAndExitNodeInfo
      rw [if_neg (by omega), hst']
    have hcl' := GetElectionAndExitNodeInfo_returned v' fuel blkNumStart blkNumEnd _ hle
      (by omega) hr'
    rw [hr', hcl', hcl]
    unfold windowRecords
    rw [htxs, scannedRecord_congr v v' hc hn]

/-- Instance on the demo chain, window 1 to 6: moving the declaration of `y` from height 1 to
height 4 without changing the order of the transactions gives the same scanner result. -/
theorem scanner_signer_height_witness :
    1 ≤ 6 ∧ 6 < 2 ^ 64 ∧
    (windowHeights 1 6).flatMap (blockTxs demoMovedVerifier) =
      (windowHeights 1 6).flatMap (blockTxs demoVerifier) ∧
    GetElectionAndExitNodeInfo demoMovedVerifier 10 1 6 =
      GetElectionAndExitNodeInfo demoVerifier 10 1 6 :=
  ⟨by decide, by decide, rfl,
    (scanner_signer_height demoVerifier 10 1 6 (by decide) (by decide)).2.1 demoMovedVerifier
      rfl rfl rfl _ rfl⟩

/-! ## When the builder fails -/

/-- On a well-ordered range the scanner either runs out of fuel or returns its map without
error. -/
theorem GetElectionAndExitNodeInfo_cases (v : Verifier) (fuel blkNumStart blkNumEnd : Nat)
    (hle : blkNumStart ≤ blkNumEnd) (hs : blkNumStart < 2 ^ 64) :
    GetElectionAndExitNodeInfo v fuel blkNumStart blkNumEnd = .outOfFuel ∨
    GetElectionAndExitNodeInfo v fuel blkNumStart blkNumEnd =
      .returned { infoMap := some (storeAll [] (windowRecords v blkNumStart blkNumEnd))
                  err := none
                  reads := windowHeights blkNumStart blkNumEnd } := by
  cases h : GetElectionAndExitNodeInfo v fuel blkNumStart blkNumEnd with
  | outOfFuel => left; rfl
  | panicked =>
    exfalso
    unfold GetElectionAndExitNodeInfo at h
    rw [if_neg (by omega)] at h
    cases hl : scanLoop v blkNumEnd fuel blkNumStart { infoMap := [], reads := [] } <;>
      rw [hl] at h <;> cases h
  | returned r =>
    right
    rw [GetElectionAndExitNodeInfo_returned v fuel blkNumStart blkNumEnd r hle hs h]

/-- On a boundary height with a baseline, the builder continues with the scanner call. -/
theorem GenerateMainNodeList_of_baseline (cfg : Params) (v : Verifier)
    (iter : NodeMap → NodeMap) (fuel currentNumber : Nat) (b : Baseline)
    (hbi : 0 < cfg.BroadcastInterval)
    (hbd : u64add currentNumber 2 % cfg.BroadcastInterval = 0)
    (hb : selectBaseline cfg v (lastBroadcastBlkNumber cfg currentNumber) = .returned (some b)) :
    GenerateMainNodeList cfg v iter fuel currentNumber =
      finishRoster cfg iter b
        (GetElectionAndExitNodeInfo v fuel (startPos cfg currentNumber) currentNumber) := by
  unfold GenerateMainNodeList
  rw [if_neg (by omega), if_neg (by simpa using hbd)]
  unfold lastBroadcastBlkNumber at hb
  dsimp only
  rw [hb]

/-- With a non-empty bootstrap list, a baseline is found unless the previous broadcast block is
needed and absent. -/
theorem selectBaseline_cases (cfg : Params) (v : Verifier) (n : Nat)
    (hboot : cfg.MainnetBootnodes ≠ []) :
    (∃ b, selectBaseline cfg v n = .returned (some b)) ∨
    (n ≠ 0 ∧ v.chain.GetBlockByNumber n = none ∧ selectBaseline cfg v n = .returned none) := by
  unfold selectBaseline
  by_cases hn : n = 0
  · left
    obtain ⟨b0, rest, hl⟩ := List.exists_cons_of_ne_nil hboot
    rw [if_pos hn, genesisBaseline_eq cfg b0 rest hl]
    exact ⟨_, rfl⟩
  · rw [if_neg hn]
    cases hblk : v.chain.GetBlockByNumber n with
    | none => right; exact ⟨hn, rfl, rfl⟩
    | some blk => left; exact ⟨_, rfl⟩

/-- C17: exact failure condition of the builder.  For a positive uint64 BroadcastInterval, a
non-empty bootstrap list and a height with currentNumber + 2 < 2^64, GenerateMainNodeList
returns an error if and only if (currentNumber + 2) mod BroadcastInterval is not 0, or
lastBroadcastBlkNumber = currentNumber + 2 - BroadcastInterval is not 0 and the block at that
height is absent.  The invalid-range error of the scanner cannot occur in the call, because
startPos <= currentNumber; and with enough fuel the call does return. -/
theorem builder_fails_iff (cfg : Params) (v : Verifier) (iter : NodeMap → NodeMap)
    (fuel currentNumber : Nat)
    (hbi : 0 < cfg.BroadcastInterval) (hbi2 : cfg.BroadcastInterval < 2 ^ 64)
    (hboot : cfg.MainnetBootnodes ≠ []) (hcn : currentNumber + 2 < 2 ^ 64) :
    ((∃ roster e,
        GenerateMainNodeList cfg v iter fuel currentNumber = .returned (roster, some e)) ↔
      ((currentNumber + 2) % cfg.BroadcastInterval ≠ 0 ∨
        (currentNumber + 2 - cfg.BroadcastInterval ≠ 0 ∧
          v.chain.GetBlockByNumber (currentNumber + 2 - cfg.BroadcastInterval) = none))) ∧
    ((currentNumber + 2) % cfg.BroadcastInterval = 0 →
      lastBroadcastBlkNumber cfg currentNumber = currentNumber + 2 - cfg.BroadcastInterval) ∧
    startPos cfg currentNumber ≤ currentNumber ∧
    (∀ r, GetElectionAndExitNodeInfo v fuel (startPos cfg currentNumber) currentNumber =
      .returned r → r.err = none) ∧
    (currentNumber + 1 - startPos cfg currentNumber < fuel →
      ∃ roster e, GenerateMainNodeList cfg v iter fuel currentNumber = .returned (roster, e)) := by
  have hadd : u64add currentNumber 2 = currentNumber + 2 := u64add_of_lt hcn
  have hsp : startPos cfg currentNumber ≤ currentNumber :=
    startPos_le cfg currentNumber hbi2 (by omega)
  have hlast : (currentNumber + 2) % cfg.BroadcastInterval = 0 →
      lastBroadcastBlkNumber cfg currentNumber = currentNumber + 2 - cfg.BroadcastInterval := by
    intro hbd
    have hle : cfg.BroadcastInterval ≤ currentNumber + 2 :=
      Nat.le_of_dvd (by omega) (Nat.dvd_of_mod_eq_zero hbd)
    unfold lastBroadcastBlkNumber
    rw [hadd, u64sub_of_le hle hcn]
  have hnb : (currentNumber + 2) % cfg.BroadcastInterval ≠ 0 →
      GenerateMainNodeList cfg v iter fuel currentNumber =
        .returned ({}, some (.notTimeToGenerate currentNumber)) := by
    intro h
    unfold GenerateMainNodeList
    rw [if_neg (by omega), hadd, if_pos h]
  refine ⟨?_, hlast, hsp, ?_, ?_⟩
  · by_cases hbd : (currentNumber + 2) % cfg.BroadcastInterval = 0
    · have hbd' : u64add currentNumber 2 % cfg.BroadcastInterval = 0 := by rw [hadd]; exact hbd
      rw [← hlast hbd]
      rcases selectBaseline_cases cfg v (lastBroadcastBlkNumber cfg currentNumber) hboot with
        ⟨b, hb⟩ | ⟨hne, habs, hsel⟩
      · have hg := GenerateMainNodeList_of_baseline cfg v iter fuel currentNumber b hbi hbd' hb
        constructor
        · rintro ⟨roster, e, hret⟩
          exfalso
          rw [hg] at hret
          rcases GetElectionAndExitNodeInfo_cases v fuel _ _ hsp (startPos_lt cfg _) with
            hs | hs <;> rw [hs] at hret <;> simp [finishRoster] at hret
        · rintro (h | ⟨hne, habs⟩)
          · exact absurd hbd h
          · exfalso
            unfold selectBaseline at hb
            rw [if_neg hne, habs] at hb
            cases hb
      · constructor
        · intro _; right; exact ⟨hne, habs⟩
        · intro _
          refine ⟨{}, .lastBroadcastBlockMissing (lastBroadcastBlkNumber cfg currentNumber), ?_⟩
          unfold GenerateMainNodeList
          rw [if_neg (by omega), if_neg (by simpa using hbd')]
          unfold lastBroadcastBlkNumber at hsel
          dsimp only
          rw [hsel]
          rfl
    · constructor
      · intro _; left; exact hbd
      · intro _; exact ⟨_, _, hnb hbd⟩
  · intro r hr
    rw [GetElectionAndExitNodeInfo_returned v fuel _ _ r hsp (startPos_lt cfg _) hr]
  · intro hfuel
    by_cases hbd : (currentNumber + 2) % cfg.BroadcastInterval = 0
    · have hbd' : u64add currentNumber 2 % cfg.BroadcastInterval = 0 := by rw [hadd]; exact hbd
      rcases selectBaseline_cases cfg v (lastBroadcastBlkNumber cfg currentNumber) hboot with
        ⟨b, hb⟩ | ⟨hne, habs, hsel⟩
      · exact ⟨_, _, GenerateMainNodeList_eq cfg v iter fuel currentNumber b hbi hbi2
          (by omega) hbd' hb hfuel⟩
      · refine ⟨{}, some (.lastBroadcastBlockMissing (lastBroadcastBlkNumber cfg currentNumber)),
          ?_⟩
        unfold GenerateMainNodeList
        rw [if_neg (by omega), if_neg (by simpa using hbd')]
        unfold lastBroadcastBlkNumber at hsel
        dsimp only
        rw [hsel]
        rfl
    · exact ⟨_, _, hnb hbd⟩

/-- Instance on the demo chain at height 10, whose previous broadcast block at height 8 is
absent: the call returns an error. -/
theorem builder_fails_iff_witness :
    0 < demoParams.BroadcastInterval ∧ demoParams.BroadcastInterval < 2 ^ 64 ∧
    demoParams.MainnetBootnodes ≠ [] ∧ 10 + 2 < 2 ^ 64 ∧
    ∃ roster e, GenerateMainNodeList demoParams demoVerifier id 0 10 =
      .returned (roster, some e) :=
  ⟨by decide, by decide, by decide, by decide,
    (builder_fails_iff demoParams demoVerifier id 0 10 (by decide) (by decide) (by decide)
      (by decide)).1.2 (Or.inr ⟨by decide, rfl⟩)⟩

/-! ## The window and the height of the baseline block -/

/-- C18: window versus baseline height.  For a height accepted by the boundary check with
currentNumber + 2 < 2^64 (and an interval constant whose successor is representable),
lastBroadcastBlkNumber = currentNumber + 2 - BroadcastInterval does not underflow and is a
multiple of BroadcastInterval, and startPos = lastBroadcastBlkNumber - 3 truncated at 0.  The
window from startPos to currentNumber has min(currentNumber + 1, BroadcastInterval + 2)
heights, and for the consecutive boundary heights currentNumber >= 1 and
currentNumber + BroadcastInterval the two windows share exactly the heights
currentNumber - 1 and currentNumber, so a record of a transaction at either height is scanned
in both epochs. -/
theorem window_vs_baseline_height (cfg : Params) (currentNumber : Nat)
    (hbi : 0 < cfg.BroadcastInterval) (hbi1 : cfg.BroadcastInterval + 1 < 2 ^ 64)
    (hcn : currentNumber + 2 < 2 ^ 64)
    (hbd : (currentNumber + 2) % cfg.BroadcastInterval = 0) :
    cfg.BroadcastInterval ≤ currentNumber + 2 ∧
    lastBroadcastBlkNumber cfg currentNumber = currentNumber + 2 - cfg.BroadcastInterval ∧
    cfg.BroadcastInterval ∣ lastBroadcastBlkNumber cfg currentNumber ∧
    startPos cfg currentNumber = lastBroadcastBlkNumber cfg currentNumber - 3 ∧
    (windowHeights (startPos cfg currentNumber) currentNumber).length =
      min (currentNumber + 1) (cfg.BroadcastInterval + 2) ∧
    (1 ≤ currentNumber → currentNumber + cfg.BroadcastInterval + 2 < 2 ^ 64 →
      u64add (currentNumber + cfg.BroadcastInterval) 2 % cfg.BroadcastInterval = 0 ∧
      (∀ x, (x ∈ windowHeights (startPos cfg currentNumber) currentNumber ∧
          x ∈ windowHeights (startPos cfg (currentNumber + cfg.BroadcastInterval))
            (currentNumber + cfg.BroadcastInterval)) ↔
        (x = currentNumber - 1 ∨ x = currentNumber)) ∧
      (∀ (v : Verifier) (r : ElectionTxPayLoadInfo) (x : Nat),
        x = currentNumber - 1 ∨ x = currentNumber →
        (∃ otx ∈ blockTxs v x, scannedRecord v otx = some r) →
        r ∈ windowRecords v (startPos cfg currentNumber) currentNumber ∧
        r ∈ windowRecords v (startPos cfg (currentNumber + cfg.BroadcastInterval))
          (currentNumber + cfg.BroadcastInterval))) := by
  have hle : cfg.BroadcastInterval ≤ currentNumber + 2 :=
    Nat.le_of_dvd (by omega) (Nat.dvd_of_mod_eq_zero hbd)
  have hlast : lastBroadcastBlkNumber cfg currentNumber =
      currentNumber + 2 - cfg.BroadcastInterval := by
    unfold lastBroadcastBlkNumber
    rw [u64add_of_lt hcn, u64sub_of_le hle hcn]
  have hs := startPos_eq cfg currentNumber hbi1 (by omega)
  refine ⟨hle, hlast, ?_, ?_, ?_, ?_⟩
  · rw [hlast]
    exact (Nat.dvd_sub' (Nat.dvd_of_mod_eq_zero hbd) (dvd_refl _))
  · rw [hs, hlast]; omega
  · unfold windowHeights
    rw [List.length_range', hs]
    omega
  · intro h1 hnext
    have hs' := startPos_eq cfg (currentNumber + cfg.BroadcastInterval) hbi1 (by omega)
    have hmem : ∀ x, (x ∈ windowHeights (startPos cfg currentNumber) currentNumber ∧
        x ∈ windowHeights (startPos cfg (currentNumber + cfg.BroadcastInterval))
          (currentNumber + cfg.BroadcastInterval)) ↔
        (x = currentNumber - 1 ∨ x = currentNumber) := by
      intro x
      rw [mem_windowHeights, mem_windowHeights, hs, hs']
      omega
    refine ⟨?_, hmem, ?_⟩
    · rw [u64add_of_lt (by omega)]
      have : currentNumber + cfg.BroadcastInterval + 2 =
          currentNumber + 2 + cfg.BroadcastInterval := by omega
      rw [this, Nat.add_mod_right]
      exact hbd
    · intro v r x hx hrec
      have hx' := (hmem x).2 hx
      rw [mem_windowHeights, mem_windowHeights] at hx'
      exact ⟨(mem_windowRecords v _ _ r).2 ⟨x, hx'.1.1, hx'.1.2, hrec⟩,
        (mem_windowRecords v _ _ r).2 ⟨x, hx'.2.1, hx'.2.2, hrec⟩⟩

/-- Instance with the interval 4 at the boundary height 2: the windows of the heights 2 and 6
are 0 to 2 and 1 to 6, and they share the heights 1 and 2. -/
theorem window_vs_baseline_height_witness :
    0 < demoParams.BroadcastInterval ∧ demoParams.BroadcastInterval + 1 < 2 ^ 64 ∧
    2 + 2 < 2 ^ 64 ∧ (2 + 2) % demoParams.BroadcastInterval = 0 ∧
    lastBroadcastBlkNumber demoParams 2 = 2 + 2 - demoParams.BroadcastInterval ∧
    (windowHeights (startPos demoParams 2) 2).length =
      min (2 + 1) (demoParams.BroadcastInterval + 2) ∧
    windowHeights (startPos demoParams 2) 2 = [0, 1, 2] ∧
    windowHeights (startPos demoParams 6) 6 = [1, 2, 3, 4, 5, 6] :=
  ⟨by decide, by decide, by decide, by decide,
    (window_vs_baseline_height demoParams 2 (by decide) (by decide) (by decide)
      (by decide)).2.1,
    (window_vs_baseline_height demoParams 2 (by decide) (by decide) (by decide)
      (by decide)).2.2.2.2.1, by decide, by decide⟩

/-! ## Carry-over of the baseline -/

theorem find?_of_nodup_ids {l : List NodeInfo} (hnd : (l.map NodeInfo.ID).Nodup) {n : NodeInfo}
    (hn : n ∈ l) : l.find? (fun n' => n'.ID = n.ID) = some n := by
  induction l with
  | nil => cases hn
  | cons a l ih =>
    rw [List.map_cons, List.nodup_cons] at hnd
    rw [List.find?_cons]
    rcases List.mem_cons.1 hn with h | h
    · subst h; simp
    · have hne : a.ID ≠ n.ID := fun he => hnd.1 (he ▸ List.mem_map.2 ⟨n, h, rfl⟩)
      simp only [hne, decide_False]
      exact ih hnd.2 h

theorem find?_map_eq_some {l : List NodeInfo} {X : String} {p : ElectionTxPayLoadInfo} (t : Nat)
    (h : (l.find? (fun n => n.ID = X)).map (fun n => newPayLoadInfo n t) = some p) :
    ∃ n ∈ l, n.ID = X ∧ p = newPayLoadInfo n t := by
  cases hf : l.find? (fun n => n.ID = X) with
  | none => rw [hf] at h; cases h
  | some n =>
    rw [hf] at h
    exact ⟨n, List.mem_of_find?_eq_some hf, by simpa using List.find?_some hf,
      (Option.some.inj h).symm⟩

/-- The value of an `ID` in the merge of a baseline into the empty map. -/
theorem mapGet_mergeBaseline_nil (cfg : Params) (b : Baseline) (X : String) :
    mapGet (mergeBaseline cfg [] b) X =
      (((b.minerList.find? (fun n => n.ID = X)).map
          (fun n => newPayLoadInfo n cfg.ElectMiner)).or
        ((b.committeeList.find? (fun n => n.ID = X)).map
          (fun n => newPayLoadInfo n cfg.ElectCommittee))).or
        ((b.bothList.find? (fun n => n.ID = X)).map (fun n => newPayLoadInfo n cfg.ElectBoth)) := by
  rw [mapGet_mergeBaseline, mapGet_nil]
  rfl

/-- Every value of the merge of a baseline into the empty map is the payload of a baseline
entry, with the type of the list of that entry. -/
theorem mapGet_mergeBaseline_nil_some (cfg : Params) (b : Baseline) (X : String)
    (p : ElectionTxPayLoadInfo) (h : mapGet (mergeBaseline cfg [] b) X = some p) :
    (∃ n ∈ b.minerList, p = newPayLoadInfo n cfg.ElectMiner) ∨
    (∃ n ∈ b.committeeList, p = newPayLoadInfo n cfg.ElectCommittee) ∨
    (∃ n ∈ b.bothList, p = newPayLoadInfo n cfg.ElectBoth) := by
  rw [mapGet_mergeBaseline_nil] at h
  cases h1 : (b.minerList.find? (fun n => n.ID = X)).map
      (fun n => newPayLoadInfo n cfg.ElectMiner) with
  | some p1 =>
    rw [h1] at h
    have hp : p1 = p := by simpa [Option.or] using h
    obtain ⟨n, hn, -, hp'⟩ := find?_map_eq_some _ h1
    left; exact ⟨n, hn, hp ▸ hp'⟩
  | none =>
    rw [h1] at h
    cases h2 : (b.committeeList.find? (fun n => n.ID = X)).map
        (fun n => newPayLoadInfo n cfg.ElectCommittee) with
    | some p2 =>
      rw [h2] at h
      have hp : p2 = p := by simpa [Option.or] using h
      obtain ⟨n, hn, -, hp'⟩ := find?_map_eq_some _ h2
      right; left; exact ⟨n, hn, hp ▸ hp'⟩
    | none =>
      rw [h2] at h
      have h3 : (b.bothList.find? (fun n => n.ID = X)).map
          (fun n => newPayLoadInfo n cfg.ElectBoth) = some p := by simpa [Option.or] using h
      obtain ⟨n, hn, -, hp'⟩ := find?_map_eq_some _ h3
      right; right; exact ⟨n, hn, hp'⟩

/-- A bucket of the roster emitted from a map is a permutation of a list without repeated
records, when the map holds the payload of each record of the list and every value of that
bucket is such a payload. -/
theorem pick_perm_of_mapGet (cfg : Params) {iter : NodeMap → NodeMap} (hiter : IterOK iter)
    {m : NodeMap} (hn : KeysNodup m) (hid : KeyIsID m) (bk : Bucket) (t : Nat)
    (l : List NodeInfo) (hbt : bucketOf cfg t = bk) (hl : l.Nodup)
    (hfw : ∀ n ∈ l, mapGet m n.ID = some (newPayLoadInfo n t))
    (hbw : ∀ X p, mapGet m X = some p → bucketOf cfg p.ElectType = bk →
      ∃ n ∈ l, p = newPayLoadInfo n t) :
    (pick cfg bk (iter m)).Perm l := by
  have hn' := keysNodup_of_perm (hiter m) hn
  have hid' := keyIsID_of_perm (hiter m) hid
  rw [List.perm_ext_iff_of_nodup ((nodup_pick_ids cfg bk hn' hid').of_map _) hl]
  intro n
  rw [mem_pick]
  constructor
  · rintro ⟨e, he, hb, hte⟩
    have hem : e ∈ m := (hiter m).mem_iff.1 he
    obtain ⟨n', hn'l, hp⟩ := hbw e.1 e.2 ((mem_iff_mapGet hn e.1 e.2).1 hem) hb
    rw [← hte, hp, toNodeInfo_newPayLoadInfo]
    exact hn'l
  · intro hnl
    refine ⟨(n.ID, newPayLoadInfo n t), ?_, ?_, toNodeInfo_newPayLoadInfo n t⟩
    · exact (hiter m).mem_iff.2 ((mem_iff_mapGet hn _ _).2 (hfw n hnl))
    · exact hbt

/-- C19: carry-over with an empty window.  On a boundary height with a present baseline block
whose MinerList, CommitteeList and Both have pairwise distinct IDs, within and across the
three lists, if the scan of the window yields an empty map then GenerateMainNodeList returns,
without error, a roster whose OfflineList is empty and whose MinerList, CommitteeList and Both
are permutations of the baseline MinerList, CommitteeList and Both; every field of a node
record passes unchanged through newPayLoadInfo and back. -/
theorem carry_over_with_empty_window (cfg : Params) (v : Verifier) (iter : NodeMap → NodeMap)
    (fuel currentNumber : Nat) (blk : Block) (r : ScanResult)
    (hd : cfg.DistinctTypes) (hiter : IterOK iter) (hbi : 0 < cfg.BroadcastInterval)
    (hbd : u64add currentNumber 2 % cfg.BroadcastInterval = 0)
    (hlast : lastBroadcastBlkNumber cfg currentNumber ≠ 0)
    (hblk : v.chain.GetBlockByNumber (lastBroadcastBlkNumber cfg currentNumber) = some blk)
    (hnd : ((blk.header.MinerList ++ blk.header.CommitteeList ++ blk.header.Both).map
      NodeInfo.ID).Nodup)
    (hscan : GetElectionAndExitNodeInfo v fuel (startPos cfg currentNumber) currentNumber =
      .returned r)
    (hempty : r.infoMap = some []) :
    (∃ roster, GenerateMainNodeList cfg v iter fuel currentNumber = .returned (roster, none) ∧
      roster.OfflineList = [] ∧
      roster.MinerList.Perm blk.header.MinerList ∧
      roster.CommitteeList.Perm blk.header.CommitteeList ∧
      roster.Both.Perm blk.header.Both) ∧
    (∀ (n : NodeInfo) (t : Nat), toNodeInfo (newPayLoadInfo n t) = n) := by
  refine ⟨?_, toNodeInfo_newPayLoadInfo⟩
  let b : Baseline := { minerList := blk.header.MinerList
                        committeeList := blk.header.CommitteeList
                        bothList := blk.header.Both }
  have hb : selectBaseline cfg v (lastBroadcastBlkNumber cfg currentNumber) =
      .returned (some b) := by
    unfold selectBaseline
    rw [if_neg hlast, hblk]
  have hg := GenerateMainNodeList_of_baseline cfg v iter fuel currentNumber b hbi hbd hb
  have hle : startPos cfg currentNumber ≤ currentNumber := by
    by_contra hgt
    rw [GetElectionAndExitNodeInfo_inverted v fuel _ _ (by omega)] at hscan
    injection hscan with hscan
    rw [← hscan] at hempty
    cases hempty
  have hr := GetElectionAndExitNodeInfo_returned v fuel _ _ r hle (startPos_lt cfg _) hscan
  have hmap : storeAll [] (windowRecords v (startPos cfg currentNumber) currentNumber) = [] := by
    rw [hr] at hempty
    exact Option.some.inj hempty
  have hret : GenerateMainNodeList cfg v iter fuel currentNumber =
      .returned (emitLists cfg iter (mergeBaseline cfg [] b), none) := by
    rw [hg, hscan, hr, hmap]
    rfl
  -- distinctness of the baseline IDs
  rw [List.map_append, List.map_append, List.nodup_append, List.nodup_append] at hnd
  obtain ⟨⟨hm, hc, hmc⟩, hbo, hmcb⟩ := hnd
  have hmc' : ∀ n ∈ b.committeeList, ∀ n' ∈ b.minerList, n'.ID ≠ n.ID := fun n hn n' hn' he =>
    hmc (List.mem_map.2 ⟨n', hn', rfl⟩) (he ▸ List.mem_map.2 ⟨n, hn, rfl⟩)
  have hmb' : ∀ n ∈ b.bothList, ∀ n' ∈ b.minerList, n'.ID ≠ n.ID := fun n hn n' hn' he =>
    hmcb (List.mem_append.2 (Or.inl (List.mem_map.2 ⟨n', hn', rfl⟩)))
      (he ▸ List.mem_map.2 ⟨n, hn, rfl⟩)
  have hcb' : ∀ n ∈ b.bothList, ∀ n' ∈ b.committeeList, n'.ID ≠ n.ID := fun n hn n' hn' he =>
    hmcb (List.mem_append.2 (Or.inr (List.mem_map.2 ⟨n', hn', rfl⟩)))
      (he ▸ List.mem_map.2 ⟨n, hn, rfl⟩)
  have hkn : KeysNodup (mergeBaseline cfg [] b) :=
    keysNodup_mergeNodeInfo (keysNodup_mergeNodeInfo (keysNodup_mergeNodeInfo
      keysNodup_nil _ _) _ _) _ _
  have hki : KeyIsID (mergeBaseline cfg [] b) :=
    keyIsID_mergeNodeInfo (keyIsID_mergeNodeInfo (keyIsID_mergeNodeInfo
      keyIsID_nil _ _) _ _) _ _
  have hbm := bucketOf_miner cfg hd
  have hbc := bucketOf_committee cfg hd
  have hbb := bucketOf_both cfg hd
  refine ⟨_, hret, ?_, ?_, ?_, ?_⟩
  · rw [emitLists_eq]
    show pick cfg .offline (iter (mergeBaseline cfg [] b)) = []
    rw [List.eq_nil_iff_forall_not_mem]
    intro n hn
    obtain ⟨e, he, hbk, -⟩ := (mem_pick cfg _ _ n).1 hn
    have hem := (mem_iff_mapGet hkn e.1 e.2).1 ((hiter _).mem_iff.1 he)
    rcases mapGet_mergeBaseline_nil_some cfg b e.1 e.2 hem with
      ⟨n', -, hp⟩ | ⟨n', -, hp⟩ | ⟨n', -, hp⟩ <;>
      rw [hp, newPayLoadInfo_electType] at hbk
    · rw [hbm] at hbk; cases hbk
    · rw [hbc] at hbk; cases hbk
    · rw [hbb] at hbk; cases hbk
  · rw [emitLists_eq]
    refine pick_perm_of_mapGet cfg hiter hkn hki .miner cfg.ElectMiner b.minerList hbm
      (hm.of_map _) ?_ ?_
    · intro n hn
      rw [mapGet_mergeBaseline_nil, find?_of_nodup_ids hm hn]
      rfl
    · intro X p hp hbk
      rcases mapGet_mergeBaseline_nil_some cfg b X p hp with
        ⟨n', hn', hp'⟩ | ⟨n', -, hp'⟩ | ⟨n', -, hp'⟩
      · exact ⟨n', hn', hp'⟩
      · rw [hp', newPayLoadInfo_electType, hbc] at hbk; cases hbk
      · rw [hp', newPayLoadInfo_electType, hbb] at hbk; cases hbk
  · rw [emitLists_eq]
    refine pick_perm_of_mapGet cfg hiter hkn hki .committee cfg.ElectCommittee b.committeeList
      hbc (hc.of_map _) ?_ ?_
    · intro n hn
      rw [mapGet_mergeBaseline_nil, find?_map_eq_none _ (hmc' n hn), find?_of_nodup_ids hc hn]
      rfl
    · intro X p hp hbk
      rcases mapGet_mergeBaseline_nil_some cfg b X p hp with
        ⟨n', -, hp'⟩ | ⟨n', hn', hp'⟩ | ⟨n', -, hp'⟩
      · rw [hp', newPayLoadInfo_electType, hbm] at hbk; cases hbk
      · exact ⟨n', hn', hp'⟩
      · rw [hp', newPayLoadInfo_electType, hbb] at hbk; cases hbk
  · rw [emitLists_eq]
    refine pick_perm_of_mapGet cfg hiter hkn hki .both cfg.ElectBoth b.bothList hbb
      (hbo.of_map _) ?_ ?_
    · intro n hn
      rw [mapGet_mergeBaseline_nil, find?_map_eq_none _ (hmb' n hn),
        find?_map_eq_none _ (hcb' n hn), find?_of_nodup_ids hbo hn]
      rfl
    · intro X p hp hbk
      rcases mapGet_mergeBaseline_nil_some cfg b X p hp with
        ⟨n', -, hp'⟩ | ⟨n', -, hp'⟩ | ⟨n', hn', hp'⟩
      · rw [hp', newPayLoadInfo_electType, hbm] at hbk; cases hbk
      · rw [hp', newPayLoadInfo_electType, hbc] at hbk; cases hbk
      · exact ⟨n', hn', hp'⟩

/-- Instance on the quiet demo chain at height 6: the window 1 to 6 holds no transaction and
the roster carries the baseline of the block at height 4 over. -/
theorem carry_over_with_empty_window_witness :
    demoParams.DistinctTypes ∧ IterOK id ∧ 0 < demoParams.BroadcastInterval ∧
    u64add 6 2 % demoParams.BroadcastInterval = 0 ∧
    lastBroadcastBlkNumber demoParams 6 ≠ 0 ∧
    demoQuietVerifier.chain.GetBlockByNumber (lastBroadcastBlkNumber demoParams 6) =
      some demoQuietBlock ∧
    GenerateMainNodeList demoParams demoQuietVerifier id 10 6 =
      .returned (demoQuietRoster, none) ∧
    ∃ roster, GenerateMainNodeList demoParams demoQuietVerifier id 10 6 =
        .returned (roster, none) ∧
      roster.OfflineList = [] ∧
      roster.MinerList.Perm demoQuietBlock.header.MinerList ∧
      roster.CommitteeList.Perm demoQuietBlock.header.CommitteeList ∧
      roster.Both.Perm demoQuietBlock.header.Both :=
  ⟨by decide, iterOK_id, by decide, by decide, by decide, rfl, by decide,
    (carry_over_with_empty_window demoParams demoQuietVerifier id 10 6 demoQuietBlock _
      (by decide) iterOK_id (by decide) (by decide) (by decide) rfl (by decide) rfl rfl).1⟩

/-! ## The genesis branch and the bootstrap list -/

/-- The genesis branch panics exactly when the bootstrap list is empty. -/
theorem genesisBaseline_panicked_iff (cfg : Params) :
    genesisBaseline cfg = .panicked ↔ cfg.MainnetBootnodes = [] := by
  unfold genesisBaseline
  cases cfg.MainnetBootnodes with
  | nil => simp
  | cons b0 rest => simp

/-- C20, evaluation at the failing input: with an empty bootstrap list, interval 4 and the
boundary height 2, whose lastBroadcastBlkNumber is 0, the genesis branch reads index 0 of the
empty list and the call panics, whatever the chain holds. -/
theorem genesis_panics_on_empty_bootstrap (v : Verifier) (iter : NodeMap → NodeMap)
    (fuel : Nat) :
    demoParamsEmpty.MainnetBootnodes = [] ∧
    lastBroadcastBlkNumber demoParamsEmpty 2 = 0 ∧
    GenerateMainNodeList demoParamsEmpty v iter fuel 2 = .panicked :=
  ⟨rfl, by decide, rfl⟩

end Verify
